import Mathlib

/-!
# Liqo: tunnel metrics, tenant role bindings, discovery deep copies, peering lifecycle

A shallow embedding of
* `pkg/liqonet/tunnel/metrics/metrics.go` (the metric descriptors),
* `pkg/tenantControlNamespace/bindings.go` (bind / unbind of ClusterRoles),
* `api/discovery/v1/zz_generated.deepcopy.go` (the generated deep copies),
* the peering lifecycle controller exercised by `test/unit/discovery/discovery_test.go`.

Go pointers that may be nil are `Option`, Go `(T, error)` results are `Except`,
package-level variables and API-server contents are explicit state.
-/

namespace Liqo

/-! ## Tunnel metrics (`pkg/liqonet/tunnel/metrics/metrics.go`) -/

namespace Metrics

/-- Descriptor built by `prometheus.NewDesc`: the fully-qualified name, the help text,
the variable labels and the constant labels (`none` is the Go `nil` map). -/
structure Desc where
  fqName : String
  help : String
  variableLabels : List String
  constLabels : Option (List (String × String))
  deriving DecidableEq, Repr

/-- The constructor `prometheus.NewDesc(fqName, help, variableLabels, constLabels)`. -/
def NewDesc (fqName help : String) (variableLabels : List String)
    (constLabels : Option (List (String × String))) : Desc :=
  { fqName := fqName, help := help, variableLabels := variableLabels, constLabels := constLabels }

/-- The package-level variables of the metrics package; the three descriptors are
pointers, nil before `init` has run. -/
structure Vars where
  PeerReceivedBytes : Option Desc
  PeerTransmittedBytes : Option Desc
  PeerLastHandshake : Option Desc
  MetricsLabels : List String
  deriving DecidableEq, Repr

/-- The zero values the package variables hold before `init`. -/
def Vars.zero : Vars :=
  { PeerReceivedBytes := none, PeerTransmittedBytes := none, PeerLastHandshake := none,
    MetricsLabels := [] }

/-- The package `init` function: it assigns `MetricsLabels` first and then builds the
three descriptors from it, each with a nil constant-label map. -/
def init (v : Vars) : Vars :=
  let v1 := { v with MetricsLabels := ["driver", "device", "cluster_id", "cluster_name"] }
  let v2 := { v1 with PeerReceivedBytes := some (NewDesc
    "liqo_peer_receive_bytes_total"
    "Number of bytes received from a given peer."
    v1.MetricsLabels
    none) }
  let v3 := { v2 with PeerTransmittedBytes := some (NewDesc
    "liqo_peer_transmit_bytes_total"
    "Number of bytes transmitted to a given peer."
    v2.MetricsLabels
    none) }
  { v3 with PeerLastHandshake := some (NewDesc
    "liqo_peer_last_handshake_seconds"
    "UNIX timestamp for the last handshake with a given peer."
    v3.MetricsLabels
    none) }

/-- The descriptors `Describe` sends on its channel, in sending order. -/
def Describe (v : Vars) : List (Option Desc) :=
  [v.PeerReceivedBytes, v.PeerTransmittedBytes, v.PeerLastHandshake]

end Metrics

/-! ## Kubernetes API objects used by the program

The `metav1`, `corev1` and `rbacv1` types, restricted to the fields this program reads or
writes. A Go map is an association list, a nil slice or map is the empty list. -/

namespace Metav1

/-- Library type `metav1.TypeMeta`. -/
structure TypeMeta where
  Kind : String
  APIVersion : String
  deriving DecidableEq, Repr, Inhabited

/-- Library type `metav1.ListMeta`. -/
structure ListMeta where
  ResourceVersion : String
  Continue : String
  deriving DecidableEq, Repr, Inhabited

/-- Library type `metav1.OwnerReference`. -/
structure OwnerReference where
  APIVersion : String
  Kind : String
  Name : String
  UID : String
  deriving DecidableEq, Repr, Inhabited

/-- Library type `metav1.ObjectMeta`. -/
structure ObjectMeta where
  Name : String
  GenerateName : String
  Namespace : String
  UID : String
  Labels : List (String × String)
  OwnerReferences : List OwnerReference
  deriving DecidableEq, Repr, Inhabited

end Metav1

namespace Corev1

/-- Library type `corev1.Namespace`. -/
structure Namespace where
  ObjectMeta : Metav1.ObjectMeta
  deriving DecidableEq, Repr, Inhabited

end Corev1

namespace Rbacv1

/-- Library constant `rbacv1.GroupName`. -/
def GroupName : String := "rbac.authorization.k8s.io"

/-- Library function `rbacv1.SchemeGroupVersion.String()`: group and version joined by a slash. -/
def SchemeGroupVersionString : String := GroupName ++ "/" ++ "v1"

/-- Library constant `rbacv1.UserKind`. -/
def UserKind : String := "User"

/-- Library type `rbacv1.Subject`. -/
structure Subject where
  Kind : String
  APIGroup : String
  Name : String
  Namespace : String
  deriving DecidableEq, Repr, Inhabited

/-- Library type `rbacv1.RoleRef`. -/
structure RoleRef where
  APIGroup : String
  Kind : String
  Name : String
  deriving DecidableEq, Repr, Inhabited

/-- Library type `rbacv1.ClusterRole`; its rules play no part in the bindings. -/
structure ClusterRole where
  ObjectMeta : Metav1.ObjectMeta
  deriving DecidableEq, Repr, Inhabited

/-- Library type `rbacv1.RoleBinding`. -/
structure RoleBinding where
  ObjectMeta : Metav1.ObjectMeta
  Subjects : List Subject
  RoleRef : RoleRef
  deriving DecidableEq, Repr, Inhabited

end Rbacv1

/-! ## Label selectors

The library code the selector string of `unbindClusterRole` goes through:
`k8s.io/apimachinery/pkg/labels` (rendering of a label set, lexer, parser and matching
of selectors), `pkg/util/validation` (label keys and values) and `pkg/selection` (the
operators). A Go string is read character by character; the bytes the lexer tests for
are all ASCII, so this is the reading of the bytes. -/

namespace Labels

/-- Library function `strings.Join(elems, sep)`. -/
def stringsJoin (elems : List String) (sep : String) : String :=
  sep.intercalate elems

/-- Library function `labels.Set.String()`: every entry rendered as `key=value`, the renderings sorted,
then joined by commas. -/
def SetString (ls : List (String × String)) : String :=
  stringsJoin (List.insertionSort (fun a b => a ≤ b) (ls.map fun kv => kv.1 ++ "=" ++ kv.2)) ","

/-! ### Validation of label keys and values (`pkg/util/validation`) -/

/-- The character class `[A-Za-z0-9]` of `qnameCharFmt`. -/
def qnameChar (c : Char) : Bool :=
  c.isAlphanum

/-- The character class `[-A-Za-z0-9_.]` of `qnameExtCharFmt`. -/
def qnameExtChar (c : Char) : Bool :=
  c.isAlphanum || c == '-' || c == '_' || c == '.'

/-- A full match of `qualifiedNameFmt`, `([A-Za-z0-9][-A-Za-z0-9_.]*)?[A-Za-z0-9]`:
non-empty, beginning and ending in the inner class, with characters of the extended
class only. -/
def matchesQualifiedNameFmt (s : List Char) : Bool :=
  match s.head?, s.getLast? with
  | some first, some last => qnameChar first && qnameChar last && s.all qnameExtChar
  | _, _ => false

/-- The character class `[a-z0-9]`. -/
def dns1123Char (c : Char) : Bool :=
  c.isLower || c.isDigit

/-- A full match of `dns1123LabelFmt`, `[a-z0-9]([-a-z0-9]*[a-z0-9])?`. -/
def matchesDNS1123LabelFmt (s : List Char) : Bool :=
  match s.head?, s.getLast? with
  | some first, some last =>
    dns1123Char first && dns1123Char last && s.all fun c => dns1123Char c || c == '-'
  | _, _ => false

/-- Library function `validation.IsDNS1123Subdomain`, true when it reports no error: at
most 253 bytes, and labels matching `dns1123LabelFmt` separated by dots. -/
def IsDNS1123Subdomain (value : String) : Bool :=
  decide (value.utf8ByteSize ≤ 253) && (value.data.splitOn '.').all matchesDNS1123LabelFmt

/-- The checks `validation.IsQualifiedName` makes on the name part: not empty, at most 63
bytes, matching `qualifiedNameFmt`. -/
def qualifiedNamePart (name : List Char) : Bool :=
  !name.isEmpty && decide ((String.mk name).utf8ByteSize ≤ 63) && matchesQualifiedNameFmt name

/-- Library function `validation.IsQualifiedName`, true when it reports no error: the
value is a name part, or a non-empty DNS subdomain, a slash and a name part. -/
def IsQualifiedName (value : String) : Bool :=
  match value.data.splitOn '/' with
  | [name] => qualifiedNamePart name
  | [pfx, name] => !pfx.isEmpty && IsDNS1123Subdomain (String.mk pfx) && qualifiedNamePart name
  | _ => false

/-- Library function `validation.IsValidLabelValue`, true when it reports no error: at
most 63 bytes and matching `(qualifiedNameFmt)?`. -/
def IsValidLabelValue (value : String) : Bool :=
  decide (value.utf8ByteSize ≤ 63) && (value.data.isEmpty || matchesQualifiedNameFmt value.data)

/-- Library function `validateLabelKey`, true when it returns no error. -/
def validateLabelKey (k : String) : Bool :=
  IsQualifiedName k

/-- Library function `validateLabelValue`, true when it returns no error. -/
def validateLabelValue (v : String) : Bool :=
  IsValidLabelValue v

/-- The digits of a base 10 number, most significant first; `none` unless there is at
least one character and all are digits. -/
def parseDigits (ds : List Char) : Option Nat :=
  if !ds.isEmpty && ds.all Char.isDigit then
    some (ds.foldl (fun n c => 10 * n + (c.toNat - 48)) 0)
  else none

/-- Library function `strconv.ParseInt(s, 10, 64)`, `none` when it returns an error: an
optional sign, digits, and a value that fits 64 bits. -/
def ParseInt (s : String) : Option Int :=
  match s.data with
  | '-' :: ds =>
    match parseDigits ds with
    | some n => if n ≤ 2 ^ 63 then some (-(n : Int)) else none
    | none => none
  | '+' :: ds =>
    match parseDigits ds with
    | some n => if n < 2 ^ 63 then some (n : Int) else none
    | none => none
  | ds =>
    match parseDigits ds with
    | some n => if n < 2 ^ 63 then some (n : Int) else none
    | none => none

/-! ### Requirements (`pkg/selection`, `labels.Requirement`) -/

/-- The operators of `pkg/selection`. -/
inductive Operator where
  | DoesNotExist
  | Equals
  | DoubleEquals
  | In
  | NotEquals
  | NotIn
  | Exists
  | GreaterThan
  | LessThan
  deriving DecidableEq, Repr

/-- Library type `labels.Requirement`: a key, an operator and the values, sorted. -/
structure Requirement where
  key : String
  operator : Operator
  strValues : List String
  deriving DecidableEq, Repr

/-- Library function `labels.NewRequirement`: the key must be a valid label key, the number
of values must fit the operator, the values of an order comparison must be integers, and
every value must be a valid label value. -/
def NewRequirement (key : String) (op : Operator) (vals : List String) :
    Except String Requirement :=
  let keyOk := validateLabelKey key
  let countOk :=
    match op with
    | .In | .NotIn => vals.length != 0
    | .Equals | .DoubleEquals | .NotEquals => vals.length == 1
    | .Exists | .DoesNotExist => vals.length == 0
    | .GreaterThan | .LessThan => vals.length == 1 && vals.all fun v => (ParseInt v).isSome
  let valuesOk := vals.all validateLabelValue
  if keyOk && countOk && valuesOk then .ok { key := key, operator := op, strValues := vals }
  else .error "invalid requirement"

/-- Library method `Requirement.hasValue`. -/
def Requirement.hasValue (r : Requirement) (value : String) : Bool :=
  r.strValues.contains value

/-- Library method `Requirement.Matches`, over the label set as an association list. -/
def Requirement.Matches (r : Requirement) (ls : List (String × String)) : Bool :=
  match r.operator with
  | .In | .Equals | .DoubleEquals =>
    match ls.lookup r.key with
    | none => false
    | some v => r.hasValue v
  | .NotIn | .NotEquals =>
    match ls.lookup r.key with
    | none => true
    | some v => !r.hasValue v
  | .Exists => (ls.lookup r.key).isSome
  | .DoesNotExist => (ls.lookup r.key).isNone
  | .GreaterThan | .LessThan =>
    match ls.lookup r.key with
    | none => false
    | some v =>
      match ParseInt v, r.strValues with
      | some lsValue, [s] =>
        match ParseInt s with
        | some rValue =>
          (r.operator == .GreaterThan && decide (lsValue > rValue))
            || (r.operator == .LessThan && decide (lsValue < rValue))
        | none => false
      | _, _ => false

/-- Library method `internalSelector.Matches`: every requirement matches. -/
def Matches (reqs : List Requirement) (ls : List (String × String)) : Bool :=
  reqs.all fun r => r.Matches ls

/-! ### Lexer (`labels.Lexer`) -/

/-- The tokens of the lexer. -/
inductive Token where
  | ErrorToken
  | EndOfStringToken
  | ClosedParToken
  | CommaToken
  | DoesNotExistToken
  | DoubleEqualsToken
  | EqualsToken
  | GreaterThanToken
  | IdentifierToken
  | InToken
  | LessThanToken
  | NotEqualsToken
  | NotInToken
  | OpenParToken
  deriving DecidableEq, Repr

/-- Library type `ScannedItem`: a token and its literal. -/
structure ScannedItem where
  tok : Token
  literal : String
  deriving DecidableEq, Repr

/-- The table `string2token`. -/
def string2token (s : String) : Option Token :=
  if s = ")" then some .ClosedParToken
  else if s = "," then some .CommaToken
  else if s = "!" then some .DoesNotExistToken
  else if s = "==" then some .DoubleEqualsToken
  else if s = "=" then some .EqualsToken
  else if s = ">" then some .GreaterThanToken
  else if s = "in" then some .InToken
  else if s = "<" then some .LessThanToken
  else if s = "!=" then some .NotEqualsToken
  else if s = "notin" then some .NotInToken
  else if s = "(" then some .OpenParToken
  else none

/-- The byte 0, which `Lexer.read` also returns at the end of the input. -/
def nul : Char :=
  Char.ofNat 0

/-- Library function `isWhitespace`: space, tab, carriage return, line feed. -/
def isWhitespace (ch : Char) : Bool :=
  ch == ' ' || ch == Char.ofNat 9 || ch == Char.ofNat 13 || ch == Char.ofNat 10

/-- Library function `isSpecialSymbol`. -/
def isSpecialSymbol (ch : Char) : Bool :=
  ch == '=' || ch == '!' || ch == '(' || ch == ')' || ch == ',' || ch == '>' || ch == '<'

/-- A character `Lexer.scanIDOrKeyword` takes into its buffer: neither the byte 0, nor a
special symbol, nor white space. -/
def identifierChar (ch : Char) : Bool :=
  !(ch == nul) && !isSpecialSymbol ch && !isWhitespace ch

/-- The loop of `Lexer.scanIDOrKeyword` over the input left, with the buffer so far: it
stops at the end of the input, after a byte 0, or before a special symbol or white
space. The result is the buffer and the input left. -/
def scanIDOrKeyword.loop : List Char → List Char → List Char × List Char
  | [], buffer => (buffer, [])
  | ch :: rest, buffer =>
    if ch = nul then (buffer, rest)
    else if isSpecialSymbol ch || isWhitespace ch then (buffer, ch :: rest)
    else scanIDOrKeyword.loop rest (buffer ++ [ch])

/-- Library method `Lexer.scanIDOrKeyword`: a literal token such as `in`, or an identifier. -/
def scanIDOrKeyword (input : List Char) : ScannedItem × List Char :=
  let r := scanIDOrKeyword.loop input []
  let s := String.mk r.1
  match string2token s with
  | some val => ({ tok := val, literal := s }, r.2)
  | none => ({ tok := .IdentifierToken, literal := s }, r.2)

/-- The loop of `Lexer.scanSpecialSymbol` over the input left, with the buffer and the
last item scanned: it extends the buffer while special symbols follow and the buffer
may still become an operator. -/
def scanSpecialSymbol.loop : List Char → List Char → ScannedItem → ScannedItem × List Char
  | [], _, lastScannedItem => (lastScannedItem, [])
  | ch :: rest, buffer, lastScannedItem =>
    if ch = nul then (lastScannedItem, rest)
    else if isSpecialSymbol ch then
      match string2token (String.mk (buffer ++ [ch])) with
      | some token =>
        scanSpecialSymbol.loop rest (buffer ++ [ch])
          { tok := token, literal := String.mk (buffer ++ [ch]) }
      | none =>
        if lastScannedItem.tok ≠ .ErrorToken then (lastScannedItem, ch :: rest)
        else scanSpecialSymbol.loop rest (buffer ++ [ch]) lastScannedItem
    else (lastScannedItem, ch :: rest)

/-- Library method `Lexer.scanSpecialSymbol`. -/
def scanSpecialSymbol (input : List Char) : ScannedItem × List Char :=
  let r := scanSpecialSymbol.loop input [] { tok := .ErrorToken, literal := "" }
  if r.1.tok = .ErrorToken then ({ tok := .ErrorToken, literal := "error expected: keyword" }, r.2)
  else r

/-- Library method `Lexer.Lex`: white space is skipped, then the end of the input, an
operator or an identifier is read. The result is the item and the input left. -/
def Lex (input : List Char) : ScannedItem × List Char :=
  match input.dropWhile isWhitespace with
  | [] => ({ tok := .EndOfStringToken, literal := "" }, [])
  | ch :: rest =>
    if ch = nul then ({ tok := .EndOfStringToken, literal := "" }, rest)
    else if isSpecialSymbol ch then scanSpecialSymbol (ch :: rest)
    else scanIDOrKeyword (ch :: rest)

/-- The loop of `Parser.scan`: items are lexed up to and including the end-of-string
token. Every item before that one consumes input, so `fuel` above the length of the
input is never used up (`scan_loop_isSome`); `none` stands for fuel used up. -/
def scan.loop : Nat → List Char → Option (List ScannedItem)
  | 0, _ => none
  | fuel + 1, input =>
    let r := Lex input
    if r.1.tok = .EndOfStringToken then some [r.1]
    else
      match scan.loop fuel r.2 with
      | some items => some (r.1 :: items)
      | none => none

/-- Library method `Parser.scan`, on the whole selector. -/
def scan (selector : String) : Option (List ScannedItem) :=
  scan.loop (selector.data.length + 1) selector.data

/-! ### Parser (`labels.Parser`) -/

/-- Library type `ParserContext`. -/
inductive ParserContext where
  | KeyAndOperator
  | Values
  deriving DecidableEq, Repr

/-- The token as a context reads it: among values, `in` and `notin` are identifiers. -/
def contextToken (context : ParserContext) (tok : Token) : Token :=
  match context, tok with
  | .Values, .InToken => .IdentifierToken
  | .Values, .NotInToken => .IdentifierToken
  | _, t => t

/-- Library method `Parser.lookahead`, over the items from the current position on. -/
def lookahead (context : ParserContext) (items : List ScannedItem) : Token × String :=
  match items with
  | [] => (.EndOfStringToken, "")
  | item :: _ => (contextToken context item.tok, item.literal)

/-- Library method `Parser.consume`, over the items from the current position on: the
current token and literal, and the items after it. -/
def consume (context : ParserContext) (items : List ScannedItem) :
    (Token × String) × List ScannedItem :=
  match items with
  | [] => ((.EndOfStringToken, ""), [])
  | item :: rest => ((contextToken context item.tok, item.literal), rest)

/-- Library method `Set.Insert` of `sets.String`, the set being a duplicate-free list. -/
def setInsert (s : List String) (item : String) : List String :=
  if s.contains item then s else s ++ [item]

/-- Library method `Set.List` of `sets.String`: the elements, sorted (strings compare as
their character lists do). -/
def setList (s : List String) : List String :=
  List.insertionSort (fun a b => a.data ≤ b.data) s

/-- Library method `Parser.parseKeyAndInferOperator`: an optional `!`, then an identifier
that is a valid label key; followed by a comma or the end of the string, the key alone
means that it exists. `none` is the operator not yet known. -/
def parseKeyAndInferOperator (items : List ScannedItem) :
    Except String ((String × Option Operator) × List ScannedItem) :=
  let first := consume .Values items
  let negated := decide (first.1.1 = .DoesNotExistToken)
  let second := if negated then consume .Values first.2 else first
  let operator : Option Operator := if negated then some .DoesNotExist else none
  if second.1.1 ≠ .IdentifierToken then .error "expected: identifier"
  else if !validateLabelKey second.1.2 then .error "invalid label key"
  else
    let t := (lookahead .Values second.2).1
    if t = .EndOfStringToken ∨ t = .CommaToken then
      if operator ≠ some .DoesNotExist then .ok ((second.1.2, some .Exists), second.2)
      else .ok ((second.1.2, operator), second.2)
    else .ok ((second.1.2, operator), second.2)

/-- Library method `Parser.parseOperator`: a binary operator. -/
def parseOperator (items : List ScannedItem) : Except String (Operator × List ScannedItem) :=
  let r := consume .KeyAndOperator items
  match r.1.1 with
  | .InToken => .ok (.In, r.2)
  | .EqualsToken => .ok (.Equals, r.2)
  | .DoubleEqualsToken => .ok (.DoubleEquals, r.2)
  | .GreaterThanToken => .ok (.GreaterThan, r.2)
  | .LessThanToken => .ok (.LessThan, r.2)
  | .NotInToken => .ok (.NotIn, r.2)
  | .NotEqualsToken => .ok (.NotEquals, r.2)
  | _ => .error "expected: a binary operator"

/-- Library method `Parser.parseExactValue`: the one value of an exact match, empty
before a comma or the end of the string. -/
def parseExactValue (items : List ScannedItem) :
    Except String (List String × List ScannedItem) :=
  let tok := (lookahead .Values items).1
  if tok = .EndOfStringToken ∨ tok = .CommaToken then .ok (setInsert [] "", items)
  else
    let r := consume .Values items
    if r.1.1 = .IdentifierToken then .ok (setInsert [] r.1.2, r.2)
    else .error "expected: identifier"

/-- The loop of `Parser.parseIdentifiersList`: a possibly empty list of comma-separated,
possibly empty identifiers. Every turn consumes an item; `fuel` above the number of items
is never used up. -/
def parseIdentifiersList.loop :
    Nat → List ScannedItem → List String → Except String (List String × List ScannedItem)
  | 0, _, _ => .error "out of items"
  | fuel + 1, items, s =>
    let r := consume .Values items
    match r.1.1 with
    | .IdentifierToken =>
      match (lookahead .Values r.2).1 with
      | .CommaToken => parseIdentifiersList.loop fuel r.2 (setInsert s r.1.2)
      | .ClosedParToken => .ok (setInsert s r.1.2, r.2)
      | _ => .error "expected: a comma or a closing parenthesis"
    | .CommaToken =>
      let s1 := if s.length = 0 then setInsert s "" else s
      let tok2 := (lookahead .Values r.2).1
      if tok2 = .ClosedParToken then .ok (setInsert s1 "", r.2)
      else if tok2 = .CommaToken then
        parseIdentifiersList.loop fuel (consume .Values r.2).2 (setInsert s1 "")
      else parseIdentifiersList.loop fuel r.2 s1
    | _ => .error "expected: a comma or identifier"

/-- Library method `Parser.parseIdentifiersList`. -/
def parseIdentifiersList (items : List ScannedItem) :
    Except String (List String × List ScannedItem) :=
  parseIdentifiersList.loop (items.length + 1) items []

/-- Library method `Parser.parseValues`: the parenthesised values of a set-based match. -/
def parseValues (items : List ScannedItem) : Except String (List String × List ScannedItem) :=
  let r := consume .Values items
  if r.1.1 ≠ .OpenParToken then .error "expected: an opening parenthesis"
  else
    match (lookahead .Values r.2).1 with
    | .IdentifierToken | .CommaToken =>
      match parseIdentifiersList r.2 with
      | .error e => .error e
      | .ok (s, items2) =>
        let r3 := consume .Values items2
        if r3.1.1 ≠ .ClosedParToken then .error "expected: a closing parenthesis"
        else .ok (s, r3.2)
    | .ClosedParToken => .ok (setInsert [] "", (consume .Values r.2).2)
    | _ => .error "expected: a comma, a closing parenthesis or identifier"

/-- Library method `Parser.parseRequirement`: key, operator and values of one
requirement, checked by `NewRequirement`. -/
def parseRequirement (items : List ScannedItem) :
    Except String (Requirement × List ScannedItem) :=
  match parseKeyAndInferOperator items with
  | .error e => .error e
  | .ok ((key, some .Exists), items1) =>
    match NewRequirement key .Exists [] with
    | .error e => .error e
    | .ok r => .ok (r, items1)
  | .ok ((key, some .DoesNotExist), items1) =>
    match NewRequirement key .DoesNotExist [] with
    | .error e => .error e
    | .ok r => .ok (r, items1)
  | .ok ((key, _), items1) =>
    match parseOperator items1 with
    | .error e => .error e
    | .ok (operator, items2) =>
      let values :=
        match operator with
        | .In | .NotIn => parseValues items2
        | _ => parseExactValue items2
      match values with
      | .error e => .error e
      | .ok (vals, items3) =>
        match NewRequirement key operator (setList vals) with
        | .error e => .error e
        | .ok r => .ok (r, items3)

/-- The loop of `Parser.parse` over the scanned items: requirements separated by commas,
up to the end of the string. Every turn consumes an item; `fuel` above the number of
items is never used up. -/
def parse.loop : Nat → List ScannedItem → List Requirement → Except String (List Requirement)
  | 0, _, _ => .error "out of items"
  | fuel + 1, items, requirements =>
    match (lookahead .Values items).1 with
    | .IdentifierToken | .DoesNotExistToken =>
      match parseRequirement items with
      | .error e => .error ("unable to parse requirement: " ++ e)
      | .ok (r, items1) =>
        let c := consume .Values items1
        match c.1.1 with
        | .EndOfStringToken => .ok (requirements ++ [r])
        | .CommaToken =>
          let t2 := (lookahead .Values c.2).1
          if t2 ≠ .IdentifierToken ∧ t2 ≠ .DoesNotExistToken then
            .error "expected: identifier after a comma"
          else parse.loop fuel c.2 (requirements ++ [r])
        | _ => .error "expected: a comma or the end of the string"
    | .EndOfStringToken => .ok requirements
    | _ => .error "expected: !, identifier, or the end of the string"

/-- Library function `labels.Parse`, which the API server applies to the label selector of
the list options: the selector is scanned, parsed, and the requirements are sorted by
key. An empty selector has no requirement and selects everything. -/
def Parse (selector : String) : Except String (List Requirement) :=
  match scan selector with
  | none => .error "out of input"
  | some items =>
    match parse.loop (items.length + 1) items [] with
    | .error e => .error e
    | .ok requirements =>
      .ok (List.insertionSort (fun a b => a.key.data ≤ b.key.data) requirements)

/-- Whether a label set satisfies a selector string; a string that is no selector is
satisfied by nothing. -/
def SelectorMatches (selector : String) (ls : List (String × String)) : Bool :=
  match Parse selector with
  | .error _ => false
  | .ok reqs => Matches reqs ls

end Labels

/-! ## Tenant control namespace bindings (`pkg/tenantControlNamespace/bindings.go`) -/

namespace TenantControlNamespace

open Metav1 Corev1 Rbacv1

/-- A Go `error` value. -/
abbrev Error := String

/-- The typed client `client.RbacV1().RoleBindings(namespace)` over an API state `σ`:
`Create(ctx, rb, opts)` and `DeleteCollection(ctx, opts, listOpts)`, the latter given the
label selector of its list options. -/
structure RoleBindingsClient (σ : Type) where
  Create : σ → String → RoleBinding → Except Error RoleBinding × σ
  DeleteCollection : σ → String → String → Option Error × σ

/-- The two package constants `bindings.go` refers to and that are declared elsewhere:
`roleBindingRoot` of this package and `discovery.ClusterRoleLabel`. -/
structure Consts where
  roleBindingRoot : String
  ClusterRoleLabel : String

/-- The receiver `tenantControlNamespaceManager`: its client, and its method `GetNamespace`,
which is declared in another file of the package and looks the tenant namespace of a
cluster up. -/
structure tenantControlNamespaceManager (σ : Type) where
  client : RoleBindingsClient σ
  GetNamespace : String → Except Error Namespace

/-- The RoleBinding `rb` that `bindClusterRole` builds before submitting it. -/
def forgeRoleBinding (c : Consts) (clusterID : String) (tenantNs : Namespace)
    (clusterRole : ClusterRole) : RoleBinding :=
  let ownerRef : OwnerReference :=
    { APIVersion := SchemeGroupVersionString
      Kind := "ClusterRole"
      Name := clusterRole.ObjectMeta.Name
      UID := clusterRole.ObjectMeta.UID }
  { ObjectMeta :=
      { Name := ""
        GenerateName :=
          Labels.stringsJoin [c.roleBindingRoot, clusterRole.ObjectMeta.Name, ""] "-"
        Namespace := tenantNs.ObjectMeta.Name
        UID := ""
        Labels := [(c.ClusterRoleLabel, clusterRole.ObjectMeta.Name)]
        OwnerReferences := [ownerRef] }
    Subjects := [{ Kind := UserKind, APIGroup := GroupName, Name := clusterID, Namespace := "" }]
    RoleRef := { APIGroup := GroupName, Kind := "ClusterRole", Name := clusterRole.ObjectMeta.Name } }

/-- Source function `bindClusterRole`: create a RoleBinding for the given clusterID in the
given Namespace. -/
def bindClusterRole {σ : Type} (c : Consts) (nm : tenantControlNamespaceManager σ) (s : σ)
    (clusterID : String) (tenantNs : Namespace) (clusterRole : ClusterRole) :
    Except Error RoleBinding × σ :=
  nm.client.Create s tenantNs.ObjectMeta.Name (forgeRoleBinding c clusterID tenantNs clusterRole)

/-- The `for i, clusterRole := range clusterRoles` loop of `BindClusterRoles`, from index `i`
on: slot `i` of `bindings` receives what `bindClusterRole` returned, and the first error
ends the loop with `nil, err`. -/
def BindClusterRoles.loop {σ : Type} (c : Consts) (nm : tenantControlNamespaceManager σ)
    (clusterID : String) (tenantNs : Namespace) :
    Nat → List ClusterRole → List (Option RoleBinding) → σ →
      Except Error (List (Option RoleBinding)) × σ
  | _, [], bindings, s => (.ok bindings, s)
  | i, clusterRole :: rest, bindings, s =>
    match bindClusterRole c nm s clusterID tenantNs clusterRole with
    | (.error err, s1) => (.error err, s1)
    | (.ok b, s1) =>
      BindClusterRoles.loop c nm clusterID tenantNs (i + 1) rest (bindings.set i (some b)) s1

/-- Source function `BindClusterRoles`: the slice `bindings` is made with one nil slot per
ClusterRole and filled by the loop. -/
def BindClusterRoles {σ : Type} (c : Consts) (nm : tenantControlNamespaceManager σ) (s : σ)
    (clusterID : String) (clusterRoles : List ClusterRole) :
    Except Error (List (Option RoleBinding)) × σ :=
  match nm.GetNamespace clusterID with
  | .error err => (.error err, s)
  | .ok tenantNs =>
    let bindings : List (Option RoleBinding) := List.replicate clusterRoles.length none
    BindClusterRoles.loop c nm clusterID tenantNs 0 clusterRoles bindings s

/-- The label selector string `unbindClusterRole` puts in its list options. -/
def unbindSelector (c : Consts) (clusterRole : String) : String :=
  Labels.SetString [(c.ClusterRoleLabel, clusterRole)]

/-- Source function `unbindClusterRole`: delete the RoleBindings of the namespace selected
by the label of the ClusterRole. -/
def unbindClusterRole {σ : Type} (c : Consts) (nm : tenantControlNamespaceManager σ) (s : σ)
    (tenantNs : Namespace) (clusterRole : String) : Option Error × σ :=
  nm.client.DeleteCollection s tenantNs.ObjectMeta.Name (unbindSelector c clusterRole)

/-- The `for _, clusterRole := range clusterRoles` loop of `UnbindClusterRoles`. -/
def UnbindClusterRoles.loop {σ : Type} (c : Consts) (nm : tenantControlNamespaceManager σ)
    (tenantNs : Namespace) : List String → σ → Option Error × σ
  | [], s => (none, s)
  | clusterRole :: rest, s =>
    match unbindClusterRole c nm s tenantNs clusterRole with
    | (some err, s1) => (some err, s1)
    | (none, s1) => UnbindClusterRoles.loop c nm tenantNs rest s1

/-- Source function `UnbindClusterRoles`; the result is the returned error, `none` for nil. -/
def UnbindClusterRoles {σ : Type} (c : Consts) (nm : tenantControlNamespaceManager σ) (s : σ)
    (clusterID : String) (clusterRoles : List String) : Option Error × σ :=
  match nm.GetNamespace clusterID with
  | .error err => (some err, s)
  | .ok tenantNs => UnbindClusterRoles.loop c nm tenantNs clusterRoles s

/-! ### A model RoleBinding store -/

/-- The RoleBindings an API server holds, of all namespaces. -/
structure Store where
  roleBindings : List RoleBinding
  deriving DecidableEq, Repr

/-- Model `Create`: a submitted object whose namespace is the one of the request is stored
as submitted and returned; any other is refused. -/
def Store.Create (s : Store) (ns : String) (rb : RoleBinding) : Except Error RoleBinding × Store :=
  if rb.ObjectMeta.Namespace = ns then (.ok rb, { roleBindings := s.roleBindings ++ [rb] })
  else (.error "the namespace of the provided object does not match the namespace sent on the request", s)

/-- Model `DeleteCollection`: an unparsable selector is an error; otherwise every
RoleBinding of the namespace whose labels satisfy the selector is removed. -/
def Store.DeleteCollection (s : Store) (ns : String) (selector : String) : Option Error × Store :=
  match Labels.Parse selector with
  | .error e => (some e, s)
  | .ok reqs =>
    (none, { roleBindings := s.roleBindings.filter fun rb =>
      !(rb.ObjectMeta.Namespace == ns && Labels.Matches reqs rb.ObjectMeta.Labels) })

/-- The client of the model store. -/
def Store.client : RoleBindingsClient Store :=
  { Create := Store.Create, DeleteCollection := Store.DeleteCollection }

/-! ### A concrete tenant, used to evaluate the definitions -/

/-- Values for the two package constants. -/
def exampleConsts : Consts :=
  { roleBindingRoot := "liqo-binding", ClusterRoleLabel := "discovery.liqo.io/cluster-role" }

/-- Tenant namespace of the cluster `c1`. -/
def exampleNamespace : Namespace :=
  { ObjectMeta := { (default : ObjectMeta) with Name := "liqo-tenant-c1" } }

/-- A manager over the model store that knows the tenant namespace of cluster `c1` only. -/
def exampleManager : tenantControlNamespaceManager Store :=
  { client := Store.client
    GetNamespace := fun clusterID =>
      if clusterID = "c1" then .ok exampleNamespace else .error "namespace not found" }

/-- A ClusterRole with the given name. -/
def exampleRole (name : String) : ClusterRole :=
  { ObjectMeta := { (default : ObjectMeta) with Name := name, UID := "uid-" ++ name } }

end TenantControlNamespace

/-! ## Generated deep copies (`api/discovery/v1/zz_generated.deepcopy.go`)

Every `DeepCopyInto` works on two memory cells, the one behind the receiver `in` and the
one behind `out`; a call is a transformer of the pair. The declarations of the Spec and
Status structs are in `types.go`, which is not among the sources: their fields, which
the generated code copies by plain assignment, are a type parameter. -/

namespace Metav1

/-- The library method `ObjectMeta.DeepCopyInto`, returning the new contents of `out`: a
plain assignment followed by fresh copies of the labels and of the owner references. -/
def ObjectMeta.DeepCopyInto (in_ _out : ObjectMeta) : ObjectMeta :=
  let out := in_
  let out := { out with Labels := in_.Labels.map fun (kv : String × String) => (kv.1, kv.2) }
  { out with OwnerReferences := in_.OwnerReferences.map fun (ref : OwnerReference) => ref }

/-- The library method `ListMeta.DeepCopyInto`, returning the new contents of `out`. -/
def ListMeta.DeepCopyInto (in_ _out : ListMeta) : ListMeta :=
  in_

end Metav1

namespace DiscoveryV1

open Metav1

/-- The two cells a `DeepCopyInto` call reads and writes: `*in` and `*out`. -/
structure Cells (T : Type) where
  in_ : T
  out : T
  deriving DecidableEq, Repr

/-- What a `DeepCopy` call leaves behind: the receiver (nil, or its cell after the call)
and the returned pointer (nil, or the cell it points to). -/
structure Copied (T : Type) where
  receiver : Option T
  result : Option T
  deriving DecidableEq, Repr

/-- The shape shared by the eight generated `DeepCopy` methods: nil for a nil receiver,
otherwise `out := new(T)`, `in.DeepCopyInto(out)`, `return out`. -/
def deepCopyWith {T : Type} [Inhabited T] (DeepCopyInto : Cells T → Cells T) (in_ : Option T) :
    Copied T :=
  match in_ with
  | none => { receiver := none, result := none }
  | some v =>
    let m := DeepCopyInto { in_ := v, out := default }
    { receiver := some m.in_, result := some m.out }

/-- Struct `ForeignClusterSpec`, by its fields. -/
structure ForeignClusterSpec (α : Type) where
  fields : α
  deriving DecidableEq, Repr, Inhabited

/-- Struct `ForeignClusterStatus`, by its fields. -/
structure ForeignClusterStatus (β : Type) where
  fields : β
  deriving DecidableEq, Repr, Inhabited

/-- Struct `FederationRequestSpec`, by its fields. -/
structure FederationRequestSpec (α : Type) where
  fields : α
  deriving DecidableEq, Repr, Inhabited

/-- Struct `FederationRequestStatus`, by its fields. -/
structure FederationRequestStatus (β : Type) where
  fields : β
  deriving DecidableEq, Repr, Inhabited

/-- Struct `ForeignCluster`. -/
structure ForeignCluster (α β : Type) where
  TypeMeta : TypeMeta
  ObjectMeta : ObjectMeta
  Spec : ForeignClusterSpec α
  Status : ForeignClusterStatus β
  deriving DecidableEq, Repr, Inhabited

/-- Struct `ForeignClusterList`; `Items` is `none` for the nil slice. -/
structure ForeignClusterList (α β : Type) where
  TypeMeta : TypeMeta
  ListMeta : ListMeta
  Items : Option (List (ForeignCluster α β))
  deriving DecidableEq, Repr, Inhabited

/-- Struct `FederationRequest`. -/
structure FederationRequest (α β : Type) where
  TypeMeta : TypeMeta
  ObjectMeta : ObjectMeta
  Spec : FederationRequestSpec α
  Status : FederationRequestStatus β
  deriving DecidableEq, Repr, Inhabited

/-- Struct `FederationRequestList`; `Items` is `none` for the nil slice. -/
structure FederationRequestList (α β : Type) where
  TypeMeta : TypeMeta
  ListMeta : ListMeta
  Items : Option (List (FederationRequest α β))
  deriving DecidableEq, Repr, Inhabited

variable {α β : Type}

/-- Source method `ForeignCluster.DeepCopyInto`. -/
def ForeignCluster.DeepCopyInto (m : Cells (ForeignCluster α β)) : Cells (ForeignCluster α β) :=
  let m := { m with out := m.in_ }
  let m := { m with out := { m.out with TypeMeta := m.in_.TypeMeta } }
  let m := { m with out := { m.out with
    ObjectMeta := m.in_.ObjectMeta.DeepCopyInto m.out.ObjectMeta } }
  let m := { m with out := { m.out with Spec := m.in_.Spec } }
  { m with out := { m.out with Status := m.in_.Status } }

/-- Source method `ForeignCluster.DeepCopy`. -/
def ForeignCluster.DeepCopy [Inhabited α] [Inhabited β] (in_ : Option (ForeignCluster α β)) :
    Copied (ForeignCluster α β) :=
  deepCopyWith ForeignCluster.DeepCopyInto in_

/-- One turn of the loop `for i := range *in` of `ForeignClusterList.DeepCopyInto`, over the two
slices: element `i` of the first is deep-copied into element `i` of the second. -/
def ForeignClusterList.DeepCopyInto.body (m : Cells (List (ForeignCluster α β))) (i : Nat) :
    Cells (List (ForeignCluster α β)) :=
  match m.in_[i]?, m.out[i]? with
  | some a, some b =>
    let e := ForeignCluster.DeepCopyInto { in_ := a, out := b }
    { in_ := m.in_.set i e.in_, out := m.out.set i e.out }
  | _, _ => m

/-- Source method `ForeignClusterList.DeepCopyInto`. -/
def ForeignClusterList.DeepCopyInto [Inhabited α] [Inhabited β]
    (m : Cells (ForeignClusterList α β)) : Cells (ForeignClusterList α β) :=
  let m := { m with out := m.in_ }
  let m := { m with out := { m.out with TypeMeta := m.in_.TypeMeta } }
  let m := { m with out := { m.out with ListMeta := m.in_.ListMeta.DeepCopyInto m.out.ListMeta } }
  match m.in_.Items with
  | none => m
  | some items =>
    let made : List (ForeignCluster α β) := List.replicate items.length default
    let r := (List.range items.length).foldl ForeignClusterList.DeepCopyInto.body
      { in_ := items, out := made }
    { in_ := { m.in_ with Items := some r.in_ }, out := { m.out with Items := some r.out } }

/-- Source method `ForeignClusterList.DeepCopy`. -/
def ForeignClusterList.DeepCopy [Inhabited α] [Inhabited β]
    (in_ : Option (ForeignClusterList α β)) : Copied (ForeignClusterList α β) :=
  deepCopyWith ForeignClusterList.DeepCopyInto in_

/-- Source method `ForeignClusterSpec.DeepCopyInto`. -/
def ForeignClusterSpec.DeepCopyInto (m : Cells (ForeignClusterSpec α)) :
    Cells (ForeignClusterSpec α) :=
  { m with out := m.in_ }

/-- Source method `ForeignClusterSpec.DeepCopy`. -/
def ForeignClusterSpec.DeepCopy [Inhabited α] (in_ : Option (ForeignClusterSpec α)) :
    Copied (ForeignClusterSpec α) :=
  deepCopyWith ForeignClusterSpec.DeepCopyInto in_

/-- Source method `ForeignClusterStatus.DeepCopyInto`. -/
def ForeignClusterStatus.DeepCopyInto (m : Cells (ForeignClusterStatus β)) :
    Cells (ForeignClusterStatus β) :=
  { m with out := m.in_ }

/-- Source method `ForeignClusterStatus.DeepCopy`. -/
def ForeignClusterStatus.DeepCopy [Inhabited β] (in_ : Option (ForeignClusterStatus β)) :
    Copied (ForeignClusterStatus β) :=
  deepCopyWith ForeignClusterStatus.DeepCopyInto in_

/-- Source method `FederationRequest.DeepCopyInto`. -/
def FederationRequest.DeepCopyInto (m : Cells (FederationRequest α β)) :
    Cells (FederationRequest α β) :=
  let m := { m with out := m.in_ }
  let m := { m with out := { m.out with TypeMeta := m.in_.TypeMeta } }
  let m := { m with out := { m.out with
    ObjectMeta := m.in_.ObjectMeta.DeepCopyInto m.out.ObjectMeta } }
  let m := { m with out := { m.out with Spec := m.in_.Spec } }
  { m with out := { m.out with Status := m.in_.Status } }

/-- Source method `FederationRequest.DeepCopy`. -/
def FederationRequest.DeepCopy [Inhabited α] [Inhabited β]
    (in_ : Option (FederationRequest α β)) : Copied (FederationRequest α β) :=
  deepCopyWith FederationRequest.DeepCopyInto in_

/-- One turn of the loop `for i := range *in` of `FederationRequestList.DeepCopyInto`, over the two
slices: element `i` of the first is deep-copied into element `i` of the second. -/
def FederationRequestList.DeepCopyInto.body (m : Cells (List (FederationRequest α β))) (i : Nat) :
    Cells (List (FederationRequest α β)) :=
  match m.in_[i]?, m.out[i]? with
  | some a, some b =>
    let e := FederationRequest.DeepCopyInto { in_ := a, out := b }
    { in_ := m.in_.set i e.in_, out := m.out.set i e.out }
  | _, _ => m

/-- Source method `FederationRequestList.DeepCopyInto`. -/
def FederationRequestList.DeepCopyInto [Inhabited α] [Inhabited β]
    (m : Cells (FederationRequestList α β)) : Cells (FederationRequestList α β) :=
  let m := { m with out := m.in_ }
  let m := { m with out := { m.out with TypeMeta := m.in_.TypeMeta } }
  let m := { m with out := { m.out with ListMeta := m.in_.ListMeta.DeepCopyInto m.out.ListMeta } }
  match m.in_.Items with
  | none => m
  | some items =>
    let made : List (FederationRequest α β) := List.replicate items.length default
    let r := (List.range items.length).foldl FederationRequestList.DeepCopyInto.body
      { in_ := items, out := made }
    { in_ := { m.in_ with Items := some r.in_ }, out := { m.out with Items := some r.out } }

/-- Source method `FederationRequestList.DeepCopy`. -/
def FederationRequestList.DeepCopy [Inhabited α] [Inhabited β]
    (in_ : Option (FederationRequestList α β)) : Copied (FederationRequestList α β) :=
  deepCopyWith FederationRequestList.DeepCopyInto in_

/-- Source method `FederationRequestSpec.DeepCopyInto`. -/
def FederationRequestSpec.DeepCopyInto (m : Cells (FederationRequestSpec α)) :
    Cells (FederationRequestSpec α) :=
  { m with out := m.in_ }

/-- Source method `FederationRequestSpec.DeepCopy`. -/
def FederationRequestSpec.DeepCopy [Inhabited α] (in_ : Option (FederationRequestSpec α)) :
    Copied (FederationRequestSpec α) :=
  deepCopyWith FederationRequestSpec.DeepCopyInto in_

/-- Source method `FederationRequestStatus.DeepCopyInto`. -/
def FederationRequestStatus.DeepCopyInto (m : Cells (FederationRequestStatus β)) :
    Cells (FederationRequestStatus β) :=
  { m with out := m.in_ }

/-- Source method `FederationRequestStatus.DeepCopy`. -/
def FederationRequestStatus.DeepCopy [Inhabited β] (in_ : Option (FederationRequestStatus β)) :
    Copied (FederationRequestStatus β) :=
  deepCopyWith FederationRequestStatus.DeepCopyInto in_

end DiscoveryV1

/-! ## Peering lifecycle controller

The controller that `test/unit/discovery/discovery_test.go` exercises (the ForeignCluster
reconciler of `internal/discovery`) is not among the sources. It is modelled from the
specification: the data model of its section 3, the tunnel fabric and handshake contracts
of sections 4.3 and 4.4, and the state machine of section 4.5. Timestamps, backoff delays
and address ranges are left out. -/

namespace Lifecycle

/-- Modelled from the spec: the ClusterIdentity of section 3, a unique cluster ID and a
human-readable name (the controller itself is missing from the sources). -/
structure ClusterIdentity where
  clusterID : String
  name : String
  deriving DecidableEq, Repr

/-- Modelled from the spec: the lifecycle states of section 4.5 (the controller is
missing from the sources). -/
inductive LifecycleState where
  | Unknown
  | Discovered
  | Authenticating
  | Establishing
  | Peered
  | Disjoining
  | Unreachable
  deriving DecidableEq, Repr

/-- Modelled from the spec: the error taxonomy of section 7 with the tunnel errors of
section 4.3 (the controller is missing from the sources). -/
inductive PeeringError where
  | Unreachable
  | Rejected
  | InvalidConfig
  | TranslationFailed
  | DriverFailed
  | NotFound
  deriving DecidableEq, Repr

/-- Modelled from the spec: the PeeringRequestReference that RequestPeering returns; it
designates the PeeringRequestRecord of one requesting cluster on the remote side (the
handshake code is missing from the sources). -/
structure PeeringRequestReference where
  requester : ClusterIdentity
  deriving DecidableEq, Repr

/-- Modelled from the spec: the ForeignClusterRecord of section 3 with the status written
back per section 6: identity, desired join flag, API endpoint, lifecycle state, nullable
peering-request reference, joined status, nullable last error (the record type is missing
from the sources). -/
structure ForeignClusterRecord where
  identity : ClusterIdentity
  join : Bool
  apiUrl : String
  state : LifecycleState
  peeringRequestRef : Option PeeringRequestReference
  joined : Bool
  lastError : Option PeeringError
  deriving DecidableEq, Repr

/-- Modelled from the spec: the PeeringRequestRecord of section 3, one cluster's request
to peer, materialized on the remote side (the record type is missing from the sources). -/
structure PeeringRequestRecord where
  requester : ClusterIdentity
  accepted : Bool
  deriving DecidableEq, Repr

/-- Modelled from the spec: the TunnelPeerConfig of section 3, the live configuration of
one link, by the cluster it leads to and the remote endpoint (the tunnel fabric is
missing from the sources). -/
structure TunnelPeerConfig where
  identity : ClusterIdentity
  endpoint : String
  deriving DecidableEq, Repr

/-- Modelled from the spec: what the collaborators answer when asked. The remote API is
reachable or not, the remote policy of section 4.4 accepts or rejects, the address
translation of section 4.2 and the tunnel driver of section 4.1 succeed or fail (all of
them are missing from the sources). -/
structure Conditions where
  reachable : Bool
  accepts : Bool
  translation : Bool
  driver : Bool
  deriving DecidableEq, Repr

/-- Modelled from the spec: a healthy remote cluster, in the sense of the scenarios of
section 8: reachable, accepting, and with a tunnel that can be established. -/
def Conditions.healthy (c : Conditions) : Bool :=
  c.reachable && c.accepts && c.translation && c.driver

/-- Modelled from the spec: the state the controller works on. The identity of the home
(requesting) cluster, its record for the remote cluster, the PeeringRequestRecords held
by the home and by the remote cluster, and the active tunnel peer configurations (the
controller is missing from the sources). -/
structure World where
  home : ClusterIdentity
  record : ForeignClusterRecord
  homeRequests : List PeeringRequestRecord
  remoteRequests : List PeeringRequestRecord
  tunnels : List TunnelPeerConfig
  deriving DecidableEq, Repr

/-- Modelled from the spec: the PeeringRequestRecords a cluster holds for one requesting
cluster. -/
def requestsOf (requester : ClusterIdentity) (rs : List PeeringRequestRecord) :
    List PeeringRequestRecord :=
  rs.filter fun r => r.requester = requester

/-- Modelled from the spec: `RequestPeering` of section 4.4, requesting side. An
unreachable remote gives `Unreachable`; an existing reference whose record is still on
the remote side is reused, no duplicate is created; a rejecting policy gives `Rejected`;
otherwise superseded requests of the requester are deleted and one accepted
PeeringRequestRecord is created on the remote side (the handshake code is missing from
the sources). -/
def RequestPeering (c : Conditions) (w : World) :
    Except PeeringError PeeringRequestReference × World :=
  if !c.reachable then (.error .Unreachable, w)
  else
    match w.record.peeringRequestRef with
    | some ref =>
      if ref.requester = w.home ∧ requestsOf w.home w.remoteRequests ≠ [] then (.ok ref, w)
      else if !c.accepts then (.error .Rejected, w)
      else
        (.ok { requester := w.home },
          { w with remoteRequests :=
              w.remoteRequests.filter (fun r => r.requester ≠ w.home)
                ++ [{ requester := w.home, accepted := true }] })
    | none =>
      if !c.accepts then (.error .Rejected, w)
      else
        (.ok { requester := w.home },
          { w with remoteRequests :=
              w.remoteRequests.filter (fun r => r.requester ≠ w.home)
                ++ [{ requester := w.home, accepted := true }] })

/-- Modelled from the spec: `Establish` of section 4.3. Address translation, then the
driver; on either failure no TunnelPeerConfig is retained, on success the cluster has
exactly one (the tunnel fabric is missing from the sources). -/
def Establish (c : Conditions) (w : World) : Except PeeringError Unit × World :=
  if !c.translation then (.error .TranslationFailed, w)
  else if !c.driver then (.error .DriverFailed, w)
  else
    (.ok (),
      { w with tunnels :=
          w.tunnels.filter (fun t => t.identity ≠ w.record.identity)
            ++ [{ identity := w.record.identity, endpoint := w.record.apiUrl }] })

/-- Modelled from the spec: `Teardown` of section 4.3, which removes the link of the
cluster and succeeds also when there is none (the tunnel fabric is missing from the
sources). -/
def Teardown (w : World) : World :=
  { w with tunnels := w.tunnels.filter fun t => t.identity ≠ w.record.identity }

/-- Modelled from the spec: the best-effort deletion of the remote PeeringRequestRecord
of section 4.5; against an unreachable remote nothing is deleted, and an absent record is
no error (the handshake code is missing from the sources). -/
def deleteRemoteRequest (c : Conditions) (w : World) : World :=
  if c.reachable then
    { w with remoteRequests := w.remoteRequests.filter fun r => r.requester ≠ w.home }
  else w

/-- Modelled from the spec: the transition into `Disjoining` of section 4.5, `Teardown`
followed by the deletion of the remote PeeringRequestRecord. -/
def disjoin (c : Conditions) (w : World) : World :=
  let w1 := deleteRemoteRequest c (Teardown w)
  { w1 with record := { w1.record with state := .Disjoining } }

/-- Modelled from the spec: failure handling of sections 4.5 and 7. `Unreachable` and
`DriverFailed` move the record to `Unreachable`; every other error aborts the attempt
where it stands; the last error is recorded in both cases. -/
def fail (e : PeeringError) (w : World) : World :=
  if e = .Unreachable ∨ e = .DriverFailed then
    { w with record := { w.record with state := .Unreachable, lastError := some e } }
  else
    { w with record := { w.record with lastError := some e } }

/-- Modelled from the spec: one transition of the Peering Lifecycle Controller of section
4.5, recomputed from the current state of the record (the controller is missing from the
sources).
* `Unknown`: a record whose join is desired is taken up again as `Discovered`.
* `Discovered → Authenticating` when the desired join flag is true.
* `Authenticating`: `RequestPeering`; on success the reference is kept and the record
  moves to `Establishing`.
* `Establishing`: `Establish`; on success the record is `Peered`, with the reference and
  the joined status set and the last error cleared.
* `Peered → Disjoining` when the desired join flag is false.
* `Disjoining → Unknown` once no link is left; joined status and reference are cleared.
* a join flag turned false while `Authenticating`, `Establishing` or `Unreachable` is
  followed up with `Disjoining`; `Unreachable` otherwise retries from `Authenticating`. -/
def step (c : Conditions) (w : World) : World :=
  match w.record.state with
  | .Unknown =>
    if w.record.join then { w with record := { w.record with state := .Discovered } } else w
  | .Discovered =>
    if w.record.join then { w with record := { w.record with state := .Authenticating } } else w
  | .Authenticating =>
    if w.record.join then
      match RequestPeering c w with
      | (.ok ref, w1) =>
        { w1 with record :=
            { w1.record with state := .Establishing, peeringRequestRef := some ref } }
      | (.error e, w1) => fail e w1
    else disjoin c w
  | .Establishing =>
    if w.record.join then
      match Establish c w with
      | (.ok _, w1) =>
        { w1 with record :=
            { w1.record with state := .Peered, joined := true, lastError := none } }
      | (.error e, w1) => fail e w1
    else disjoin c w
  | .Peered =>
    if w.record.join then w else disjoin c w
  | .Disjoining =>
    if (w.tunnels.filter fun t => t.identity = w.record.identity) = [] then
      { w with record :=
          { w.record with state := .Unknown, joined := false, peeringRequestRef := none } }
    else Teardown w
  | .Unreachable =>
    if w.record.join then { w with record := { w.record with state := .Authenticating } }
    else disjoin c w

/-- Modelled from the spec: level-triggered reconciliation, section 4.5. Transitions are
taken from the current state until none changes anything, at most `fuel` of them. -/
def reconcile (c : Conditions) : Nat → World → World
  | 0, w => w
  | fuel + 1, w => if step c w = w then w else reconcile c fuel (step c w)

/-- Modelled from the spec: creation of the ForeignClusterRecord on first discovery,
section 3, with the given desired join flag: the record is `Discovered`, not joined, with
no reference and no error. -/
def createRecord (home remote : ClusterIdentity) (apiUrl : String) (join : Bool)
    (homeRequests remoteRequests : List PeeringRequestRecord)
    (tunnels : List TunnelPeerConfig) : World :=
  { home := home
    record :=
      { identity := remote, join := join, apiUrl := apiUrl, state := .Discovered,
        peeringRequestRef := none, joined := false, lastError := none }
    homeRequests := homeRequests
    remoteRequests := remoteRequests
    tunnels := tunnels }

/-- Modelled from the spec: the external write of the desired join flag, section 6. -/
def setJoin (join : Bool) (w : World) : World :=
  { w with record := { w.record with join := join } }

/-- Modelled from the spec: the life of one record. It is created and reconciled, then
every write of the desired join flag is followed by a reconciliation. -/
def run (c : Conditions) (fuel : Nat) (w : World) (flags : List Bool) : World :=
  flags.foldl (fun w join => reconcile c fuel (setJoin join w)) (reconcile c fuel w)

/-- Modelled from the spec: the `PeeringRequestName` the tests read from the status, the
cluster ID of the referenced request, empty when the reference is null. -/
def ForeignClusterRecord.PeeringRequestName (r : ForeignClusterRecord) : String :=
  match r.peeringRequestRef with
  | none => ""
  | some ref => ref.requester.clusterID

/-- A world at rest whatever the desired join flag says: either the record is `Peered`,
joined, holds the reference of the home cluster, and the remote side holds exactly one
PeeringRequestRecord of the home cluster; or the record is `Unknown` or `Discovered`, not
joined, without reference, and the remote side holds no PeeringRequestRecord of the home
cluster. -/
def Rest (w : World) : Prop :=
  (w.record.state = .Peered
      ∧ (requestsOf w.home w.remoteRequests).length = 1
      ∧ w.record.peeringRequestRef = some { requester := w.home }
      ∧ w.record.joined = true)
    ∨ ((w.record.state = .Unknown ∨ w.record.state = .Discovered)
      ∧ requestsOf w.home w.remoteRequests = []
      ∧ w.record.peeringRequestRef = none
      ∧ w.record.joined = false)

/-- A world at rest that agrees with the desired join flag: `Peered` when the flag is
true, `Unknown` or `Discovered` when it is false. -/
def Settled (w : World) : Prop :=
  (w.record.join = true ∧ w.record.state = .Peered
      ∧ (requestsOf w.home w.remoteRequests).length = 1
      ∧ w.record.peeringRequestRef = some { requester := w.home }
      ∧ w.record.joined = true)
    ∨ (w.record.join = false ∧ (w.record.state = .Unknown ∨ w.record.state = .Discovered)
      ∧ requestsOf w.home w.remoteRequests = []
      ∧ w.record.peeringRequestRef = none
      ∧ w.record.joined = false)

/-- The home cluster of the unit test, `test-cluster` being the remote one. -/
def exampleHome : ClusterIdentity :=
  { clusterID := "home-cluster", name := "home" }

/-- The remote cluster of the unit test. -/
def exampleRemote : ClusterIdentity :=
  { clusterID := "test-cluster", name := "fc-test" }

/-- A healthy remote cluster. -/
def exampleHealthy : Conditions :=
  { reachable := true, accepts := true, translation := true, driver := true }

end Lifecycle

/-! ## Theorems: tunnel metrics -/


namespace Metrics

/-- C1 (as stated, refuted): after `init` none of the three descriptors carries the
unprefixed name of the claim (`peer_receive_bytes_total`, `peer_transmit_bytes_total`,
`peer_last_handshake_seconds`); the names the code gives carry the `liqo_` prefix. -/
theorem init_fqName_unprefixed_fails :
    (init Vars.zero).PeerReceivedBytes.map Desc.fqName ≠ some "peer_receive_bytes_total"
      ∧ (init Vars.zero).PeerTransmittedBytes.map Desc.fqName
          ≠ some "peer_transmit_bytes_total"
      ∧ (init Vars.zero).PeerLastHandshake.map Desc.fqName
          ≠ some "peer_last_handshake_seconds" := by
  decide

/-- C1 (amended): whatever the package variables held before, after `init` the three
descriptors PeerReceivedBytes, PeerTransmittedBytes and PeerLastHandshake are non-nil and
their fully-qualified names are exactly `liqo_peer_receive_bytes_total`,
`liqo_peer_transmit_bytes_total` and `liqo_peer_last_handshake_seconds`. -/
theorem init_fqNames (v : Vars) :
    (init v).PeerReceivedBytes.map Desc.fqName = some "liqo_peer_receive_bytes_total"
      ∧ (init v).PeerTransmittedBytes.map Desc.fqName = some "liqo_peer_transmit_bytes_total"
      ∧ (init v).PeerLastHandshake.map Desc.fqName = some "liqo_peer_last_handshake_seconds" :=
  ⟨rfl, rfl, rfl⟩

/-- C2: after `init`, each of the three descriptors is non-nil, carries as variable labels
exactly the list `MetricsLabels`, that list is `driver`, `device`, `cluster_id`,
`cluster_name` in this order, and each descriptor has no constant labels. -/
theorem init_labels (v : Vars) :
    (init v).MetricsLabels = ["driver", "device", "cluster_id", "cluster_name"]
      ∧ ∀ d ∈ Describe (init v), ∃ desc, d = some desc
          ∧ desc.variableLabels = (init v).MetricsLabels ∧ desc.constLabels = none := by
  refine ⟨rfl, ?_⟩
  intro d hd
  simp only [Describe, List.mem_cons, List.mem_singleton, List.not_mem_nil, or_false] at hd
  rcases hd with h | h | h <;> subst h <;> exact ⟨_, rfl, rfl, rfl⟩

end Metrics

/-! ## Theorems: binding ClusterRoles -/

namespace TenantControlNamespace

open Metav1 Corev1 Rbacv1

/-- The loop of `BindClusterRoles` from index `i` on: if the API answers the request for
every remaining role with a binding, the loop ends with no error, in the API state
reached after the last request, and it has overwritten exactly the slots from `i` on. -/
theorem BindClusterRoles.loop_ok {σ : Type} (c : Consts) (nm : tenantControlNamespaceManager σ)
    (clusterID : String) (tenantNs : Namespace) (st : Nat → σ) (bs : Nat → RoleBinding) :
    ∀ (rest : List ClusterRole) (i : Nat) (bindings : List (Option RoleBinding)),
      i + rest.length ≤ bindings.length →
      (∀ j (hj : j < rest.length),
        nm.client.Create (st (i + j)) tenantNs.ObjectMeta.Name
            (forgeRoleBinding c clusterID tenantNs (rest.get ⟨j, hj⟩))
          = (.ok (bs (i + j)), st (i + j + 1))) →
      ∃ result, BindClusterRoles.loop c nm clusterID tenantNs i rest bindings (st i)
          = (.ok result, st (i + rest.length))
        ∧ result.length = bindings.length
        ∧ (∀ j, i ≤ j → j < i + rest.length → result[j]? = some (some (bs j)))
        ∧ (∀ j, j < i → result[j]? = bindings[j]?) := by
  intro rest
  induction rest with
  | nil =>
    intro i bindings _ _
    exact ⟨bindings, rfl, rfl, fun j h1 h2 => absurd h2 (by simp; omega), fun _ _ => rfl⟩
  | cons r rest ih =>
    intro i bindings hlen hcreate
    have h0 := hcreate 0 (by simp)
    simp only [List.get_eq_getElem, List.getElem_cons_zero, Nat.add_zero] at h0
    have hrest : ∀ j (hj : j < rest.length),
        nm.client.Create (st (i + 1 + j)) tenantNs.ObjectMeta.Name
            (forgeRoleBinding c clusterID tenantNs (rest.get ⟨j, hj⟩))
          = (.ok (bs (i + 1 + j)), st (i + 1 + j + 1)) := by
      intro j hj
      have h := hcreate (j + 1) (by simp; omega)
      simp only [List.get_eq_getElem, List.getElem_cons_succ] at h
      have e : i + (j + 1) = i + 1 + j := by omega
      rw [e] at h
      simpa using h
    simp only [List.length_cons] at hlen
    obtain ⟨result, hrun, hlen2, hset, hkeep⟩ :=
      ih (i + 1) (bindings.set i (some (bs i))) (by simp; omega) hrest
    refine ⟨result, ?_, ?_, ?_, ?_⟩
    · simp only [BindClusterRoles.loop, bindClusterRole, h0, List.length_cons]
      rw [hrun]
      congr 2
      omega
    · simpa using hlen2
    · intro j h1 h2
      by_cases hj : j = i
      · subst hj
        rw [hkeep j (by omega)]
        simp [List.getElem?_set]
        omega
      · exact hset j (by omega) (by simp only [List.length_cons] at h2; omega)
    · intro j hj
      rw [hkeep j (by omega)]
      simp [List.getElem?_set]
      omega

/-- The equation behind BindClusterRoles: with the namespace found and every creation
answered by a binding, the result is the list of the answers, in the last API state. -/
theorem BindClusterRoles.run_ok {σ : Type} (c : Consts) (nm : tenantControlNamespaceManager σ)
    (clusterID : String) (tenantNs : Namespace) (clusterRoles : List ClusterRole)
    (st : Nat → σ) (bs : Nat → RoleBinding)
    (hns : nm.GetNamespace clusterID = .ok tenantNs)
    (hcreate : ∀ i (hi : i < clusterRoles.length),
      nm.client.Create (st i) tenantNs.ObjectMeta.Name
          (forgeRoleBinding c clusterID tenantNs (clusterRoles.get ⟨i, hi⟩))
        = (.ok (bs i), st (i + 1))) :
    BindClusterRoles c nm (st 0) clusterID clusterRoles
        = (.ok ((List.range clusterRoles.length).map fun i => some (bs i)),
            st clusterRoles.length) := by
  obtain ⟨result, hrun, hlen, hset, -⟩ :=
    BindClusterRoles.loop_ok c nm clusterID tenantNs st bs clusterRoles 0
      (List.replicate clusterRoles.length none) (by simp)
      (by intro j hj; simpa using hcreate j hj)
  simp only [Nat.zero_add] at hrun
  simp only [BindClusterRoles, hns, hrun]
  congr 2
  apply List.ext_getElem?
  intro j
  by_cases hj : j < clusterRoles.length
  · rw [hset j (Nat.zero_le _) (by omega)]
    simp [List.getElem?_map, List.getElem?_range hj]
  · have h1 : result.length ≤ j := by simp at hlen; omega
    rw [List.getElem?_eq_none h1, List.getElem?_eq_none (by simpa using hj)]

/-- C5: when the tenant control namespace of `clusterID` is found and the API answers the
creation request for every ClusterRole `r_i` (submitted in that namespace, in input order,
each in the API state left by the previous one) with a binding `bs i`, BindClusterRoles
returns a nil error and the list `bs 0, ..., bs (n-1)`: one non-nil binding per role, in
input order, the empty list (and an untouched API state) for no role; and every binding
it submits carries the name of the tenant namespace. -/
theorem BindClusterRoles_ok {σ : Type} (c : Consts) (nm : tenantControlNamespaceManager σ)
    (clusterID : String) (tenantNs : Namespace) (clusterRoles : List ClusterRole)
    (st : Nat → σ) (bs : Nat → RoleBinding)
    (hns : nm.GetNamespace clusterID = .ok tenantNs)
    (hcreate : ∀ i (hi : i < clusterRoles.length),
      nm.client.Create (st i) tenantNs.ObjectMeta.Name
          (forgeRoleBinding c clusterID tenantNs (clusterRoles.get ⟨i, hi⟩))
        = (.ok (bs i), st (i + 1))) :
    BindClusterRoles c nm (st 0) clusterID clusterRoles
        = (.ok ((List.range clusterRoles.length).map fun i => some (bs i)),
            st clusterRoles.length)
      ∧ ∀ r ∈ clusterRoles,
          (forgeRoleBinding c clusterID tenantNs r).ObjectMeta.Namespace
            = tenantNs.ObjectMeta.Name :=
  ⟨BindClusterRoles.run_ok c nm clusterID tenantNs clusterRoles st bs hns hcreate,
    fun _ _ => rfl⟩

/-- C5, evaluated: on the model store, binding the roles `a` and `b` for cluster `c1`
returns the two forged bindings in input order and leaves them in the store. -/
theorem BindClusterRoles_ok_witness :
    exampleManager.GetNamespace "c1" = .ok exampleNamespace
      ∧ BindClusterRoles exampleConsts exampleManager ⟨[]⟩ "c1" [exampleRole "a", exampleRole "b"]
        = (.ok [some (forgeRoleBinding exampleConsts "c1" exampleNamespace (exampleRole "a")),
                some (forgeRoleBinding exampleConsts "c1" exampleNamespace (exampleRole "b"))],
            ⟨[forgeRoleBinding exampleConsts "c1" exampleNamespace (exampleRole "a"),
              forgeRoleBinding exampleConsts "c1" exampleNamespace (exampleRole "b")]⟩) :=
  ⟨rfl,
    (BindClusterRoles_ok exampleConsts exampleManager "c1" exampleNamespace
      [exampleRole "a", exampleRole "b"]
      (fun i => ⟨([exampleRole "a", exampleRole "b"].take i).map
        (forgeRoleBinding exampleConsts "c1" exampleNamespace)⟩)
      (fun i => forgeRoleBinding exampleConsts "c1" exampleNamespace
        ([exampleRole "a", exampleRole "b"].getD i default))
      rfl
      (fun i hi => match i, hi with
        | 0, _ => rfl
        | 1, _ => rfl)).1⟩

end TenantControlNamespace

/-! ## Theorems: the selector of `unbindClusterRole` and the bind / unbind round trip -/

namespace Labels

/-- Rendering of a one-entry label set: the key, an equals sign, the value. -/
theorem SetString_singleton (k v : String) : SetString [(k, v)] = k ++ "=" ++ v := by
  simp [SetString, stringsJoin, String.intercalate, String.intercalate.go]

theorem identifierChar_of_not (c : Char)
    (h : ∀ d ∈ [nul, '=', '!', '(', ')', ',', '>', '<', ' ', Char.ofNat 9, Char.ofNat 13,
      Char.ofNat 10], c ≠ d) : identifierChar c = true := by
  simp only [List.mem_cons, List.mem_singleton, List.not_mem_nil, or_false, forall_eq_or_imp,
    forall_eq] at h
  simp [identifierChar, isSpecialSymbol, isWhitespace, h]

theorem identifierChar_of_qnameExtChar (c : Char) (h : qnameExtChar c = true) :
    identifierChar c = true := by
  apply identifierChar_of_not
  intro d hd hcd
  subst hcd
  revert h
  revert hd
  revert c
  decide


theorem identifierChar_of_dns1123Char (c : Char) (h : (dns1123Char c || c == '-') = true) :
    identifierChar c = true := by
  apply identifierChar_of_not
  intro d hd hcd
  subst hcd
  revert h
  revert hd
  revert c
  decide

theorem mem_of_mem_intercalate_singleton (x : Char) :
    ∀ (ls : List (List Char)) (c : Char), c ∈ [x].intercalate ls → c = x ∨ ∃ l ∈ ls, c ∈ l
  | [], c, h => by simp [List.intercalate] at h
  | [l], c, h => by
    simp [List.intercalate] at h
    exact Or.inr ⟨l, by simp, h⟩
  | l :: m :: rest, c, h => by
    have e : [x].intercalate (l :: m :: rest) = l ++ x :: [x].intercalate (m :: rest) := by
      simp [List.intercalate, List.intersperse]
    rw [e] at h
    simp only [List.mem_append, List.mem_cons] at h
    rcases h with h | h | h
    · exact Or.inr ⟨l, by simp, h⟩
    · exact Or.inl h
    · rcases mem_of_mem_intercalate_singleton x (m :: rest) c h with h | ⟨l', hl', hc⟩
      · exact Or.inl h
      · exact Or.inr ⟨l', by simp [hl'], hc⟩

theorem mem_splitOn (x : Char) (l : List Char) (c : Char) (h : c ∈ l) :
    c = x ∨ ∃ p ∈ l.splitOn x, c ∈ p := by
  have e := List.intercalate_splitOn l x
  rw [← e] at h
  exact mem_of_mem_intercalate_singleton x _ c h

theorem all_of_matchesQualifiedNameFmt (s : List Char) (h : matchesQualifiedNameFmt s = true) :
    s ≠ [] ∧ ∀ c ∈ s, qnameExtChar c = true := by
  unfold matchesQualifiedNameFmt at h
  cases s with
  | nil => simp at h
  | cons a t =>
    refine ⟨by simp, ?_⟩
    cases hl : (a :: t).getLast? with
    | none => simp [hl] at h
    | some last =>
      simp only [List.head?_cons, hl, Bool.and_eq_true, List.all_eq_true] at h
      exact h.2

theorem all_of_matchesDNS1123LabelFmt (s : List Char) (h : matchesDNS1123LabelFmt s = true) :
    ∀ c ∈ s, (dns1123Char c || c == '-') = true := by
  unfold matchesDNS1123LabelFmt at h
  cases s with
  | nil => simp at h
  | cons a t =>
    cases hl : (a :: t).getLast? with
    | none => simp [hl] at h
    | some last =>
      simp only [List.head?_cons, hl, Bool.and_eq_true, List.all_eq_true] at h
      exact h.2

theorem identifierChar_of_IsDNS1123Subdomain (value : String) (h : IsDNS1123Subdomain value = true) :
    ∀ c ∈ value.data, identifierChar c = true := by
  simp only [IsDNS1123Subdomain, Bool.and_eq_true, List.all_eq_true] at h
  intro c hc
  rcases mem_splitOn '.' value.data c hc with rfl | ⟨p, hp, hcp⟩
  · decide
  · exact identifierChar_of_dns1123Char c (all_of_matchesDNS1123LabelFmt p (h.2 p hp) c hcp)

theorem identifierChar_of_qualifiedNamePart (name : List Char) (h : qualifiedNamePart name = true) :
    name ≠ [] ∧ ∀ c ∈ name, identifierChar c = true := by
  simp only [qualifiedNamePart, Bool.and_eq_true] at h
  obtain ⟨hne, hall⟩ := all_of_matchesQualifiedNameFmt name h.2
  exact ⟨hne, fun c hc => identifierChar_of_qnameExtChar c (hall c hc)⟩

/-- A valid label key is not empty and holds only characters the lexer takes into an
identifier. -/
theorem identifierChar_of_validateLabelKey (k : String) (h : validateLabelKey k = true) :
    k.data ≠ [] ∧ ∀ c ∈ k.data, identifierChar c = true := by
  simp only [validateLabelKey, IsQualifiedName] at h
  have hjoin := List.intercalate_splitOn k.data '/'
  split at h
  · rename_i name hsplit
    rw [hsplit] at hjoin
    have e : k.data = name := by
      rw [← hjoin]
      simp [List.intercalate, List.intersperse]
    rw [e]
    exact identifierChar_of_qualifiedNamePart name h
  · rename_i pfx name hsplit
    rw [hsplit] at hjoin
    simp only [Bool.and_eq_true] at h
    obtain ⟨hne, hall⟩ := identifierChar_of_qualifiedNamePart name h.2
    have hp := identifierChar_of_IsDNS1123Subdomain (String.mk pfx) h.1.2
    have e : k.data = pfx ++ '/' :: name := by
      rw [← hjoin]
      simp [List.intercalate, List.intersperse]
    rw [e]
    refine ⟨by simp, ?_⟩
    intro c hc
    simp only [List.mem_append, List.mem_cons] at hc
    rcases hc with hc | rfl | hc
    · exact hp c hc
    · decide
    · exact hall c hc
  · simp at h

/-- A valid label value holds only characters the lexer takes into an identifier. -/
theorem identifierChar_of_validateLabelValue (v : String) (h : validateLabelValue v = true) :
    ∀ c ∈ v.data, identifierChar c = true := by
  simp only [validateLabelValue, IsValidLabelValue, Bool.and_eq_true, Bool.or_eq_true] at h
  rcases h.2 with h2 | h2
  · intro c hc
    have : v.data = [] := by simpa using h2
    rw [this] at hc
    simp at hc
  · intro c hc
    exact identifierChar_of_qnameExtChar c ((all_of_matchesQualifiedNameFmt _ h2).2 c hc)


/-- What follows an identifier in the input: nothing, or a special symbol or white space. -/
theorem scanIDOrKeyword_loop_append :
    ∀ (l buffer rest : List Char), (∀ c ∈ l, identifierChar c = true) →
      (rest = [] ∨ ∃ c t, rest = c :: t ∧ c ≠ nul
        ∧ (isSpecialSymbol c || isWhitespace c) = true) →
      scanIDOrKeyword.loop (l ++ rest) buffer = (buffer ++ l, rest)
  | [], buffer, rest, _, hrest => by
    rcases hrest with rfl | ⟨c, t, rfl, hc, hs⟩
    · simp [scanIDOrKeyword.loop]
    · simp [scanIDOrKeyword.loop, hc, hs]
  | a :: l, buffer, rest, hall, hrest => by
    have ha : identifierChar a = true := hall a (by simp)
    simp only [identifierChar, Bool.and_eq_true, Bool.not_eq_true', beq_eq_false_iff_ne,
      ne_eq] at ha
    have ih := scanIDOrKeyword_loop_append l (buffer ++ [a]) rest
      (fun c hc => hall c (by simp [hc])) hrest
    simp [scanIDOrKeyword.loop, ha.1.1, ha.1.2, ha.2, ih]

theorem string2token_identifier (s : String) (hall : ∀ c ∈ s.data, identifierChar c = true) :
    string2token s = none ∨ string2token s = some .InToken
      ∨ string2token s = some .NotInToken := by
  have key : ∀ (t : String) (c : Char), c ∈ t.data → identifierChar c = false → s ≠ t := by
    intro t c hc hf hst
    subst hst
    have := hall c hc
    simp [hf] at this
  unfold string2token
  rw [if_neg (key ")" ')' (by decide) (by decide)), if_neg (key "," ',' (by decide) (by decide)),
    if_neg (key "!" '!' (by decide) (by decide)), if_neg (key "==" '=' (by decide) (by decide)),
    if_neg (key "=" '=' (by decide) (by decide)), if_neg (key ">" '>' (by decide) (by decide))]
  by_cases h1 : s = "in"
  · simp [h1]
  · rw [if_neg h1, if_neg (key "<" '<' (by decide) (by decide)),
      if_neg (key "!=" '=' (by decide) (by decide))]
    by_cases h2 : s = "notin"
    · simp [h2]
    · rw [if_neg h2, if_neg (key "(" '(' (by decide) (by decide))]
      simp

/-- Lexing at an identifier: the whole identifier is read, as a token that counts as an
identifier among values. -/
theorem Lex_identifier (l rest : List Char) (hne : l ≠ [])
    (hall : ∀ c ∈ l, identifierChar c = true)
    (hrest : rest = [] ∨ ∃ c t, rest = c :: t ∧ c ≠ nul
      ∧ (isSpecialSymbol c || isWhitespace c) = true) :
    ∃ tok, Lex (l ++ rest) = ({ tok := tok, literal := String.mk l }, rest)
      ∧ contextToken .Values tok = .IdentifierToken ∧ tok ≠ .EndOfStringToken := by
  cases l with
  | nil => exact absurd rfl hne
  | cons a t =>
    have ha : identifierChar a = true := hall a (by simp)
    simp only [identifierChar, Bool.and_eq_true, Bool.not_eq_true', beq_eq_false_iff_ne,
      ne_eq] at ha
    have hloop := scanIDOrKeyword_loop_append (a :: t) [] rest hall hrest
    have hlex : Lex (a :: t ++ rest) = scanIDOrKeyword (a :: t ++ rest) := by
      simp [Lex, List.dropWhile, ha.1.1, ha.1.2, ha.2]
    rw [hlex]
    simp only [scanIDOrKeyword, hloop, List.nil_append]
    rcases string2token_identifier (String.mk (a :: t)) hall with h | h | h
    · exact ⟨.IdentifierToken, by rw [h], rfl, by decide⟩
    · exact ⟨.InToken, by rw [h], rfl, by decide⟩
    · exact ⟨.NotInToken, by rw [h], rfl, by decide⟩

/-- Lexing at an equals sign followed by an identifier or by nothing. -/
theorem Lex_equals (r : List Char) (hall : ∀ c ∈ r, identifierChar c = true) :
    Lex ('=' :: r) = ({ tok := .EqualsToken, literal := "=" }, r) := by
  have h0 : string2token (String.mk ([] ++ ['='])) = some .EqualsToken := by decide
  have hnul : ('=' : Char) ≠ nul := by decide
  have hsp : isSpecialSymbol '=' = true := by decide
  have hws : isWhitespace '=' = false := by decide
  have hloop : scanSpecialSymbol.loop r ([] ++ ['='])
      { tok := .EqualsToken, literal := String.mk ([] ++ ['=']) }
      = ({ tok := .EqualsToken, literal := String.mk ([] ++ ['=']) }, r) := by
    cases r with
    | nil => rfl
    | cons c t =>
      have hc : identifierChar c = true := hall c (by simp)
      simp only [identifierChar, Bool.and_eq_true, Bool.not_eq_true', beq_eq_false_iff_ne,
        ne_eq] at hc
      simp [scanSpecialSymbol.loop, hc.1.1, hc.1.2]
  simp only [Lex, List.dropWhile, hws, hnul, hsp, if_true, if_false, scanSpecialSymbol,
    scanSpecialSymbol.loop, h0, hloop]
  simp


theorem Lex_nil : Lex [] = ({ tok := .EndOfStringToken, literal := "" }, []) := rfl

/-- More fuel does not change what the scan has found. -/
theorem scan_loop_mono : ∀ (fuel : Nat) (input : List Char) (items : List ScannedItem),
    scan.loop fuel input = some items → ∀ k, scan.loop (fuel + k) input = some items
  | 0, _, _, h, _ => by simp [scan.loop] at h
  | fuel + 1, input, items, h, k => by
    have e : fuel + 1 + k = (fuel + k) + 1 := by omega
    rw [e]
    simp only [scan.loop] at h ⊢
    split
    · rename_i heos
      simpa [heos] using h
    · rename_i heos
      rw [if_neg heos] at h
      cases hr : scan.loop fuel (Lex input).2 with
      | none => simp [hr] at h
      | some rest =>
        rw [hr] at h
        rw [scan_loop_mono fuel _ rest hr k]
        exact h

/-- The scan of `key=value`, for a key and a value made of identifier characters. -/
theorem scan_key_equals_value (k v : String) (hk : k.data ≠ [])
    (hkall : ∀ c ∈ k.data, identifierChar c = true)
    (hvall : ∀ c ∈ v.data, identifierChar c = true) :
    ∃ tk tv, contextToken .Values tk = .IdentifierToken
      ∧ contextToken .Values tv = .IdentifierToken
      ∧ scan (k ++ "=" ++ v)
        = some (if v.data = [] then
            [{ tok := tk, literal := k }, { tok := .EqualsToken, literal := "=" },
              { tok := .EndOfStringToken, literal := "" }]
          else
            [{ tok := tk, literal := k }, { tok := .EqualsToken, literal := "=" },
              { tok := tv, literal := v }, { tok := .EndOfStringToken, literal := "" }]) := by
  have hdata : (k ++ "=" ++ v).data = k.data ++ '=' :: v.data := by simp
  obtain ⟨tk, hlexk, htk, htk2⟩ := Lex_identifier k.data ('=' :: v.data) hk hkall
    (Or.inr ⟨'=', v.data, rfl, by decide, by decide⟩)
  have hlexeq := Lex_equals v.data hvall
  have hklen : 1 ≤ k.data.length := by
    cases hkd : k.data with
    | nil => exact absurd hkd hk
    | cons a t => simp
  by_cases hv : v.data = []
  · refine ⟨tk, .IdentifierToken, htk, rfl, ?_⟩
    rw [if_pos hv]
    have h3 : scan.loop 3 (k.data ++ '=' :: v.data)
        = some [{ tok := tk, literal := k }, { tok := .EqualsToken, literal := "=" },
            { tok := .EndOfStringToken, literal := "" }] := by
      simp only [scan.loop, hlexk, hlexeq, htk2, if_false]
      simp [hv, Lex_nil]
    have := scan_loop_mono 3 _ _ h3 ((k ++ "=" ++ v).data.length + 1 - 3)
    have hlen : 3 + ((k ++ "=" ++ v).data.length + 1 - 3) = (k ++ "=" ++ v).data.length + 1 := by
      rw [hdata]
      simp only [List.length_append, List.length_cons]
      omega
    rw [hlen] at this
    rw [scan, hdata]
    rw [hdata] at this
    exact this
  · obtain ⟨tv, hlexv, htv, htv2⟩ := Lex_identifier v.data [] hv hvall (Or.inl rfl)
    rw [List.append_nil] at hlexv
    refine ⟨tk, tv, htk, htv, ?_⟩
    rw [if_neg hv]
    have hvlen : 1 ≤ v.data.length := by
      cases hvd : v.data with
      | nil => exact absurd hvd hv
      | cons a t => simp
    have h4 : scan.loop 4 (k.data ++ '=' :: v.data)
        = some [{ tok := tk, literal := k }, { tok := .EqualsToken, literal := "=" },
            { tok := tv, literal := v }, { tok := .EndOfStringToken, literal := "" }] := by
      simp only [scan.loop, hlexk, hlexeq, hlexv, htk2, htv2, if_false]
      simp [Lex_nil]
    have := scan_loop_mono 4 _ _ h4 ((k ++ "=" ++ v).data.length + 1 - 4)
    have hlen : 4 + ((k ++ "=" ++ v).data.length + 1 - 4) = (k ++ "=" ++ v).data.length + 1 := by
      rw [hdata]
      simp only [List.length_append, List.length_cons]
      omega
    rw [hlen] at this
    rw [scan, hdata]
    rw [hdata] at this
    exact this


/-- The selector `key=value`, for a valid label key and a valid label value, parses to
the one requirement that the key equals the value. -/
theorem Parse_key_equals_value (k v : String) (hk : validateLabelKey k = true)
    (hv : validateLabelValue v = true) :
    Parse (k ++ "=" ++ v) = .ok [{ key := k, operator := .Equals, strValues := [v] }] := by
  obtain ⟨hkne, hkall⟩ := identifierChar_of_validateLabelKey k hk
  have hvall := identifierChar_of_validateLabelValue v hv
  obtain ⟨tk, tv, htk, htv, hscan⟩ := scan_key_equals_value k v hkne hkall hvall
  have c1 : contextToken .Values .EqualsToken = .EqualsToken := rfl
  have c2 : contextToken .KeyAndOperator .EqualsToken = .EqualsToken := rfl
  have c3 : contextToken .Values .EndOfStringToken = .EndOfStringToken := rfl
  rw [Parse, hscan]
  by_cases hvd : v.data = []
  · have hve : v = "" := by
      cases v
      simp_all
    subst hve
    simp only [if_true]
    simp [parse.loop, lookahead, consume, parseRequirement, parseKeyAndInferOperator, htk,
      c1, c2, c3, hk, parseOperator, parseExactValue, NewRequirement, setInsert, setList, hv]
  · rw [if_neg hvd]
    simp [parse.loop, lookahead, consume, parseRequirement, parseKeyAndInferOperator, htk, htv,
      c1, c2, c3, hk, parseOperator, parseExactValue, NewRequirement, setInsert, setList, hv]

/-- The requirement that a key equals a value is met by the label sets that hold the key
with that value. -/
theorem Matches_equals (k v : String) (ls : List (String × String)) :
    Matches [{ key := k, operator := .Equals, strValues := [v] }] ls
      = (ls.lookup k == some v) := by
  cases h : ls.lookup k with
  | none => simp [Matches, Requirement.Matches, h]
  | some w =>
    by_cases hwv : w = v <;> simp [Matches, Requirement.Matches, Requirement.hasValue, h, hwv]


theorem scanIDOrKeyword_loop_length : ∀ (input buffer : List Char),
    (scanIDOrKeyword.loop input buffer).2.length ≤ input.length
  | [], _ => by simp [scanIDOrKeyword.loop]
  | ch :: rest, buffer => by
    have ih := scanIDOrKeyword_loop_length rest (buffer ++ [ch])
    simp only [scanIDOrKeyword.loop]
    split
    · simp
    · split
      · simp
      · simp only [List.length_cons]
        omega

theorem scanSpecialSymbol_loop_length : ∀ (input buffer : List Char) (last : ScannedItem),
    (scanSpecialSymbol.loop input buffer last).2.length ≤ input.length
  | [], _, _ => by simp [scanSpecialSymbol.loop]
  | ch :: rest, buffer, last => by
    simp only [scanSpecialSymbol.loop]
    split
    · simp
    · split
      · split
        · have ih := scanSpecialSymbol_loop_length rest (buffer ++ [ch])
            { tok := ‹Token›, literal := String.mk (buffer ++ [ch]) }
          simp only [List.length_cons]
          omega
        · split
          · simp
          · have ih := scanSpecialSymbol_loop_length rest (buffer ++ [ch]) last
            simp only [List.length_cons]
            omega
      · simp

/-- Every item but the end-of-string token consumes input. -/
theorem Lex_length (input : List Char) (h : (Lex input).1.tok ≠ .EndOfStringToken) :
    (Lex input).2.length < input.length := by
  have hdrop : (input.dropWhile isWhitespace).length ≤ input.length :=
    (List.dropWhile_sublist _).length_le
  unfold Lex at h ⊢
  cases hd : input.dropWhile isWhitespace with
  | nil => simp [hd] at h
  | cons ch rest =>
    rw [hd] at hdrop
    simp only [List.length_cons] at hdrop
    simp only [hd] at h ⊢
    by_cases hnul : ch = nul
    · simp [hnul] at h
    · rw [if_neg hnul]
      by_cases hsp : isSpecialSymbol ch = true
      · rw [if_pos hsp]
        have hstr : ∃ token, string2token (String.mk ([] ++ [ch])) = some token := by
          simp only [isSpecialSymbol, Bool.or_eq_true, beq_iff_eq] at hsp
          rcases hsp with (((((rfl | rfl) | rfl) | rfl) | rfl) | rfl) | rfl <;> exact ⟨_, rfl⟩
        obtain ⟨token, htoken⟩ := hstr
        have hlen := scanSpecialSymbol_loop_length rest ([] ++ [ch])
          { tok := token, literal := String.mk ([] ++ [ch]) }
        simp only [scanSpecialSymbol, scanSpecialSymbol.loop, if_neg hnul, hsp, if_true, htoken]
        split
        · show (scanSpecialSymbol.loop rest ([] ++ [ch])
            { tok := token, literal := String.mk ([] ++ [ch]) }).2.length < input.length
          omega
        · omega
      · rw [if_neg hsp]
        have hsp2 : isSpecialSymbol ch = false := by simpa using hsp
        have hws : isWhitespace ch = false := by
          have := List.head_dropWhile_not isWhitespace input (by rw [hd]; simp)
          simpa [hd] using this
        have hlen := scanIDOrKeyword_loop_length rest ([] ++ [ch])
        simp only [scanIDOrKeyword, scanIDOrKeyword.loop, if_neg hnul, hsp2, hws, Bool.or_self,
          Bool.false_eq_true, if_false]
        split <;> simp only <;> omega

/-- The scan never runs out of fuel: one more than the length of the input is enough. -/
theorem scan_loop_isSome : ∀ (fuel : Nat) (input : List Char), input.length < fuel →
    (scan.loop fuel input).isSome = true
  | 0, _, h => by omega
  | fuel + 1, input, h => by
    simp only [scan.loop]
    split
    · rfl
    · rename_i heos
      have hlt := Lex_length input heos
      have ih := scan_loop_isSome fuel (Lex input).2 (by omega)
      cases hr : scan.loop fuel (Lex input).2 with
      | none => simp [hr] at ih
      | some items => rfl

end Labels

namespace TenantControlNamespace

open Metav1 Corev1 Rbacv1

/-- The deletion `unbindClusterRole` asks for, with a valid key and a valid value: it
succeeds and removes the RoleBindings of the namespace that hold the ClusterRole label
with the given name. -/
theorem Store.DeleteCollection_unbindSelector (c : Consts)
    (hK : Labels.validateLabelKey c.ClusterRoleLabel = true) (s : Store) (ns r : String) (hr : Labels.validateLabelValue r = true) :
    Store.DeleteCollection s ns (unbindSelector c r)
      = (none, { roleBindings := s.roleBindings.filter fun rb =>
          !(rb.ObjectMeta.Namespace == ns
            && rb.ObjectMeta.Labels.lookup c.ClusterRoleLabel == some r) }) := by
  simp only [Store.DeleteCollection, unbindSelector, Labels.SetString_singleton,
    Labels.Parse_key_equals_value _ _ hK hr, Labels.Matches_equals]

/-- The loop of `UnbindClusterRoles` on the model store, for valid label values: it ends with no
error and has removed exactly the RoleBindings of the namespace labelled with one of the
names. -/
theorem UnbindClusterRoles.loop_store (c : Consts)
    (hK : Labels.validateLabelKey c.ClusterRoleLabel = true)
    (nm : tenantControlNamespaceManager Store) (hclient : nm.client = Store.client)
    (tenantNs : Namespace) :
    ∀ (names : List String) (s : Store), (∀ r ∈ names, Labels.validateLabelValue r = true) →
      UnbindClusterRoles.loop c nm tenantNs names s
        = (none, { roleBindings := s.roleBindings.filter fun rb =>
            !(rb.ObjectMeta.Namespace == tenantNs.ObjectMeta.Name
              && names.any fun r => rb.ObjectMeta.Labels.lookup c.ClusterRoleLabel == some r) })
  | [], s, _ => by simp [UnbindClusterRoles.loop]
  | r :: rest, s, h => by
    have hr : Labels.validateLabelValue r = true := h r (by simp)
    have hrest : ∀ r ∈ rest, Labels.validateLabelValue r = true := fun x hx => h x (by simp [hx])
    simp only [UnbindClusterRoles.loop, unbindClusterRole, hclient, Store.client,
      Store.DeleteCollection_unbindSelector c hK s _ r hr,
      UnbindClusterRoles.loop_store c hK nm hclient tenantNs rest _ hrest]
    simp only [List.filter_filter, List.any_cons]
    congr 2
    apply List.filter_congr
    intro rb _
    cases (rb.ObjectMeta.Namespace == tenantNs.ObjectMeta.Name) <;> simp [Bool.and_comm]

/-- BindClusterRoles on the model store: every creation succeeds, the result lists the
forged bindings in input order and the store has them appended. -/
theorem BindClusterRoles_store (c : Consts) (nm : tenantControlNamespaceManager Store)
    (hclient : nm.client = Store.client) (clusterID : String) (tenantNs : Namespace)
    (hns : nm.GetNamespace clusterID = .ok tenantNs) (s : Store)
    (clusterRoles : List ClusterRole) :
    BindClusterRoles c nm s clusterID clusterRoles
      = (.ok (clusterRoles.map fun r => some (forgeRoleBinding c clusterID tenantNs r)),
          { roleBindings := s.roleBindings
              ++ clusterRoles.map (forgeRoleBinding c clusterID tenantNs) }) := by
  have h := BindClusterRoles.run_ok c nm clusterID tenantNs clusterRoles
    (fun i => { roleBindings := s.roleBindings
        ++ (clusterRoles.take i).map (forgeRoleBinding c clusterID tenantNs) })
    (fun i => forgeRoleBinding c clusterID tenantNs (clusterRoles.getD i default))
    hns
    (by
      intro i hi
      have hget : clusterRoles.getD i default = clusterRoles.get ⟨i, hi⟩ := by
        rw [List.get_eq_getElem]
        exact List.getD_eq_getElem _ _ hi
      have htake : clusterRoles.take (i + 1)
          = clusterRoles.take i ++ [clusterRoles.get ⟨i, hi⟩] := by
        rw [List.take_succ, List.getElem?_eq_getElem hi, List.get_eq_getElem]
        rfl
      have hsame : (forgeRoleBinding c clusterID tenantNs
          (clusterRoles.get ⟨i, hi⟩)).ObjectMeta.Namespace = tenantNs.ObjectMeta.Name := rfl
      rw [hclient]
      simp only [Store.client, Store.Create]
      rw [if_pos hsame, hget, htake, List.map_append, List.append_assoc]
      rfl)
  simp only [List.take_zero, List.map_nil, List.append_nil, List.take_length] at h
  rw [h]
  congr 2
  apply List.ext_getElem?
  intro j
  by_cases hj : j < clusterRoles.length
  · simp [List.getElem?_map, List.getElem?_range hj, List.getElem?_eq_getElem hj]
  · rw [List.getElem?_eq_none (by simpa using hj), List.getElem?_eq_none (by simpa using hj)]

/-- C6 (as stated, refuted): a role name that is no valid label value breaks the round
trip. With `w` the name `a,discovery.liqo.io/cluster-role=a`: the selector built for `w`
is satisfied by the binding forged for the role `a`, a different name, and not by the one
forged for the role `w`; after binding `a` and `w`, unbinding both names succeeds and
leaves the binding created for `w` in the tenant namespace; after binding `a` alone,
unbinding `w` succeeds and removes the binding of `a`, which was not named. -/
theorem unbind_separator_name_counterexample :
    Labels.SelectorMatches
        (unbindSelector exampleConsts "a,discovery.liqo.io/cluster-role=a")
        (forgeRoleBinding exampleConsts "c1" exampleNamespace (exampleRole "a")).ObjectMeta.Labels
        = true
      ∧ Labels.SelectorMatches
          (unbindSelector exampleConsts "a,discovery.liqo.io/cluster-role=a")
          (forgeRoleBinding exampleConsts "c1" exampleNamespace
            (exampleRole "a,discovery.liqo.io/cluster-role=a")).ObjectMeta.Labels
          = false
      ∧ UnbindClusterRoles exampleConsts exampleManager
          (BindClusterRoles exampleConsts exampleManager ⟨[]⟩ "c1"
            [exampleRole "a", exampleRole "a,discovery.liqo.io/cluster-role=a"]).2
          "c1" ["a", "a,discovery.liqo.io/cluster-role=a"]
          = (none, ⟨[forgeRoleBinding exampleConsts "c1" exampleNamespace
              (exampleRole "a,discovery.liqo.io/cluster-role=a")]⟩)
      ∧ UnbindClusterRoles exampleConsts exampleManager
          (BindClusterRoles exampleConsts exampleManager ⟨[]⟩ "c1" [exampleRole "a"]).2
          "c1" ["a,discovery.liqo.io/cluster-role=a"]
          = (none, ⟨[]⟩) := by
  decide

/-- C6 (amended): over the model RoleBinding store, with a ClusterRole label that is a
valid label key. The selector `unbindClusterRole` builds for a role name `r` is exactly the
label key, `=`, `r`. For a name `r` that is a valid label value, that selector is
satisfied by the RoleBinding `bindClusterRole` forges for a ClusterRole exactly when the
ClusterRole is named `r`. Hence, for names that are all valid label values:
BindClusterRoles succeeds, the following UnbindClusterRoles of the names succeeds, every
binding created for a named role was in the store and is gone, every RoleBinding outside
the tenant namespace or not labelled with a named role is kept, and nothing is added. -/
theorem bind_unbind_roundtrip (c : Consts)
    (hK : Labels.validateLabelKey c.ClusterRoleLabel = true)
    (nm : tenantControlNamespaceManager Store) (hclient : nm.client = Store.client)
    (clusterID : String) (tenantNs : Namespace)
    (hns : nm.GetNamespace clusterID = .ok tenantNs) (s0 : Store)
    (clusterRoles : List ClusterRole) (names : List String)
    (hnames : ∀ r ∈ names, Labels.validateLabelValue r = true) :
    (∀ r, unbindSelector c r = c.ClusterRoleLabel ++ "=" ++ r)
      ∧ (∀ r, Labels.validateLabelValue r = true → ∀ (id : String) (ns : Namespace) (role : ClusterRole),
          Labels.SelectorMatches (unbindSelector c r)
              (forgeRoleBinding c id ns role).ObjectMeta.Labels
            = decide (role.ObjectMeta.Name = r))
      ∧ ∃ bindings s1 s2,
          BindClusterRoles c nm s0 clusterID clusterRoles = (.ok bindings, s1)
          ∧ UnbindClusterRoles c nm s1 clusterID names = (none, s2)
          ∧ (∀ role ∈ clusterRoles, role.ObjectMeta.Name ∈ names →
              forgeRoleBinding c clusterID tenantNs role ∈ s1.roleBindings
              ∧ forgeRoleBinding c clusterID tenantNs role ∉ s2.roleBindings)
          ∧ (∀ rb ∈ s1.roleBindings,
              (rb.ObjectMeta.Namespace ≠ tenantNs.ObjectMeta.Name
                ∨ ∀ r ∈ names, rb.ObjectMeta.Labels.lookup c.ClusterRoleLabel ≠ some r) →
              rb ∈ s2.roleBindings)
          ∧ (∀ rb ∈ s2.roleBindings, rb ∈ s1.roleBindings) := by
  refine ⟨fun r => Labels.SetString_singleton _ _, ?_, ?_⟩
  · intro r hr id ns role
    simp only [Labels.SelectorMatches, unbindSelector, Labels.SetString_singleton,
      Labels.Parse_key_equals_value _ _ hK hr, Labels.Matches_equals, forgeRoleBinding]
    by_cases h : role.ObjectMeta.Name = r <;> simp [List.lookup, h]
  · have hU : ∀ s1 : Store, UnbindClusterRoles c nm s1 clusterID names
        = (none, { roleBindings := s1.roleBindings.filter fun rb =>
            !(rb.ObjectMeta.Namespace == tenantNs.ObjectMeta.Name
              && names.any fun r =>
                rb.ObjectMeta.Labels.lookup c.ClusterRoleLabel == some r) }) := by
      intro s1
      simp only [UnbindClusterRoles, hns]
      exact UnbindClusterRoles.loop_store c hK nm hclient tenantNs names _ hnames
    refine ⟨_, _, _, BindClusterRoles_store c nm hclient clusterID tenantNs hns s0 clusterRoles,
      hU _, ?_, ?_, ?_⟩
    · intro role hrole hname
      refine ⟨by simp only [List.mem_append, List.mem_map]; exact Or.inr ⟨role, hrole, rfl⟩, ?_⟩
      simp only [List.mem_filter, not_and]
      intro _
      have hlook : (forgeRoleBinding c clusterID tenantNs role).ObjectMeta.Labels.lookup
          c.ClusterRoleLabel = some role.ObjectMeta.Name := by
        simp [forgeRoleBinding, List.lookup]
      have hnsEq : (forgeRoleBinding c clusterID tenantNs role).ObjectMeta.Namespace
          = tenantNs.ObjectMeta.Name := rfl
      rw [hlook, hnsEq]
      simp only [beq_self_eq_true, Bool.true_and, Bool.not_eq_true', Bool.not_eq_false,
        List.any_eq_true, beq_iff_eq, not_exists, not_and, Classical.not_forall, not_not]
      simpa using hname
    · intro rb hrb hcond
      simp only [List.mem_filter]
      refine ⟨hrb, ?_⟩
      rcases hcond with h | h
      · simp [h]
      · simp only [Bool.not_eq_true', Bool.and_eq_false_iff, beq_eq_false_iff_ne, ne_eq,
          List.any_eq_false, beq_iff_eq]
        exact Or.inr fun r hr => h r hr
    · intro rb hrb
      exact (List.mem_filter.mp hrb).1

/-- C6 (amended), evaluated: on the model store, for cluster `c1`, after binding the roles
`a` and `b` the unbinding of `a` leaves the binding of `b` only. -/
theorem bind_unbind_roundtrip_witness :
    Labels.validateLabelKey exampleConsts.ClusterRoleLabel = true
      ∧ (∀ r ∈ ["a"], Labels.validateLabelValue r = true)
      ∧ UnbindClusterRoles exampleConsts exampleManager
          (BindClusterRoles exampleConsts exampleManager ⟨[]⟩ "c1"
            [exampleRole "a", exampleRole "b"]).2 "c1" ["a"]
          = (none, ⟨[forgeRoleBinding exampleConsts "c1" exampleNamespace (exampleRole "b")]⟩)
      ∧ Labels.SelectorMatches (unbindSelector exampleConsts "a")
          (forgeRoleBinding exampleConsts "c1" exampleNamespace (exampleRole "a")).ObjectMeta.Labels
          = decide ((exampleRole "a").ObjectMeta.Name = "a") :=
  ⟨by decide, by decide, by decide,
    (bind_unbind_roundtrip exampleConsts (by decide) exampleManager rfl "c1" exampleNamespace rfl
      ⟨[]⟩ [exampleRole "a", exampleRole "b"] ["a"] (by decide)).2.1 "a" (by decide) "c1"
      exampleNamespace (exampleRole "a")⟩

end TenantControlNamespace

/-! ## Theorems: generated deep copies -/

namespace Metav1

/-- The library deep copy of an ObjectMeta gives `out` the value of `in`. -/
theorem ObjectMeta_DeepCopyInto_eq (in_ out : ObjectMeta) :
    ObjectMeta.DeepCopyInto in_ out = in_ := by
  cases in_
  simp [ObjectMeta.DeepCopyInto]

end Metav1

namespace DiscoveryV1

open Metav1

variable {α β : Type}

/-- An index loop that copies element `i` of the first slice over element `i` of the
second, run over the first `k` indices, leaves the first slice as it was and makes the
first `k` elements of the second equal to those of the first. -/
theorem foldl_copy_range {T : Type} (body : Cells (List T) → Nat → Cells (List T))
    (hbody : ∀ (m : Cells (List T)) (i : Nat) (a b : T), m.in_[i]? = some a →
      m.out[i]? = some b → body m i = { in_ := m.in_.set i a, out := m.out.set i a })
    (items made : List T) (hlen : made.length = items.length) :
    ∀ k, k ≤ items.length →
      (List.range k).foldl body { in_ := items, out := made }
        = { in_ := items, out := items.take k ++ made.drop k } := by
  intro k
  induction k with
  | zero => intro _; simp
  | succ k ih =>
    intro hk
    have hk1 : k < items.length := by omega
    have hk2 : k < made.length := by omega
    rw [List.range_succ, List.foldl_append, ih (by omega)]
    simp only [List.foldl_cons, List.foldl_nil]
    have hin : items[k]? = some items[k] := List.getElem?_eq_getElem hk1
    have hout : (items.take k ++ made.drop k)[k]? = some made[k] := by
      rw [List.getElem?_append_right (by simp)]
      simp [List.length_take, Nat.min_eq_left (Nat.le_of_lt hk1), List.getElem?_eq_getElem hk2]
    rw [hbody _ k items[k] made[k] hin hout]
    congr 1
    · apply List.ext_getElem?
      intro j
      rw [List.getElem?_set]
      by_cases hjk : k = j
      · subst hjk
        simp [hk1, List.getElem?_eq_getElem hk1]
      · rw [if_neg hjk]
    · apply List.ext_getElem?
      intro j
      rw [List.getElem?_set]
      by_cases hj : j < k
      · have hne : k ≠ j := by omega
        rw [if_neg hne, List.getElem?_append_left (by simp; omega),
          List.getElem?_append_left (by simp; omega)]
        simp [List.getElem?_take, hj, Nat.lt_succ_of_lt hj]
      · by_cases hjk : j = k
        · subst hjk
          rw [if_pos rfl, List.getElem?_append_left (by simp; omega)]
          simp [List.getElem?_take, hk1, List.getElem?_eq_getElem hk1]
          omega
        · have hne : k ≠ j := fun h => hjk h.symm
          rw [if_neg hne, List.getElem?_append_right (by simp; omega),
            List.getElem?_append_right (by simp; omega)]
          simp only [List.length_take, Nat.min_eq_left (Nat.le_of_lt hk1),
            Nat.min_eq_left hk, List.getElem?_drop]
          congr 1
          omega

/-- The cell pair after `ForeignCluster.DeepCopyInto`: `in` as before, `out` equal to it. -/
theorem ForeignCluster_DeepCopyInto_eq (m : Cells (ForeignCluster α β)) :
    ForeignCluster.DeepCopyInto m = { in_ := m.in_, out := m.in_ } := by
  simp [ForeignCluster.DeepCopyInto, ObjectMeta_DeepCopyInto_eq]

/-- The cell pair after `FederationRequest.DeepCopyInto`: `in` as before, `out` equal to
it. -/
theorem FederationRequest_DeepCopyInto_eq (m : Cells (FederationRequest α β)) :
    FederationRequest.DeepCopyInto m = { in_ := m.in_, out := m.in_ } := by
  simp [FederationRequest.DeepCopyInto, ObjectMeta_DeepCopyInto_eq]

/-- The cell pair after `ForeignClusterList.DeepCopyInto`: `in` as before, `out` equal to
it. -/
theorem ForeignClusterList_DeepCopyInto_eq [Inhabited α] [Inhabited β]
    (m : Cells (ForeignClusterList α β)) :
    ForeignClusterList.DeepCopyInto m = { in_ := m.in_, out := m.in_ } := by
  obtain ⟨⟨tm, lm, items⟩, out⟩ := m
  cases items with
  | none => simp [ForeignClusterList.DeepCopyInto, ListMeta.DeepCopyInto]
  | some items =>
    have h := foldl_copy_range (ForeignClusterList.DeepCopyInto.body (α := α) (β := β))
      (by
        intro m i a b ha hb
        simp [ForeignClusterList.DeepCopyInto.body, ha, hb, ForeignCluster_DeepCopyInto_eq])
      items (List.replicate items.length default) (by simp) items.length (Nat.le_refl _)
    simp [ForeignClusterList.DeepCopyInto, ListMeta.DeepCopyInto, h]

/-- The cell pair after `FederationRequestList.DeepCopyInto`: `in` as before, `out` equal
to it. -/
theorem FederationRequestList_DeepCopyInto_eq [Inhabited α] [Inhabited β]
    (m : Cells (FederationRequestList α β)) :
    FederationRequestList.DeepCopyInto m = { in_ := m.in_, out := m.in_ } := by
  obtain ⟨⟨tm, lm, items⟩, out⟩ := m
  cases items with
  | none => simp [FederationRequestList.DeepCopyInto, ListMeta.DeepCopyInto]
  | some items =>
    have h := foldl_copy_range (FederationRequestList.DeepCopyInto.body (α := α) (β := β))
      (by
        intro m i a b ha hb
        simp [FederationRequestList.DeepCopyInto.body, ha, hb, FederationRequest_DeepCopyInto_eq])
      items (List.replicate items.length default) (by simp) items.length (Nat.le_refl _)
    simp [FederationRequestList.DeepCopyInto, ListMeta.DeepCopyInto, h]

/-- The shape shared by the `DeepCopy` methods, over a `DeepCopyInto` that leaves `in` as
it was and makes `out` equal to it: receiver unchanged, result equal to the receiver. -/
theorem deepCopyWith_eq {T : Type} [Inhabited T] (f : Cells T → Cells T)
    (hf : ∀ m, f m = { in_ := m.in_, out := m.in_ }) (in_ : Option T) :
    deepCopyWith f in_ = { receiver := in_, result := in_ } := by
  cases in_ <;> simp [deepCopyWith, hf]

/-- C7: for each of the eight generated types, DeepCopy leaves the receiver unchanged and
returns a result equal to it: nil exactly for the nil receiver, and for a non-nil receiver
a value equal to the receiver in every field. For the two list types, moreover, the Items
of the copy is nil exactly when the Items of the receiver is, has the same length otherwise,
and holds at every index the item the receiver holds there. -/
theorem DeepCopy_eq_receiver [Inhabited α] [Inhabited β] :
    (∀ in_ : Option (ForeignCluster α β),
        ForeignCluster.DeepCopy in_ = { receiver := in_, result := in_ })
      ∧ (∀ in_ : Option (ForeignClusterList α β),
        ForeignClusterList.DeepCopy in_ = { receiver := in_, result := in_ })
      ∧ (∀ in_ : Option (ForeignClusterSpec α),
        ForeignClusterSpec.DeepCopy in_ = { receiver := in_, result := in_ })
      ∧ (∀ in_ : Option (ForeignClusterStatus β),
        ForeignClusterStatus.DeepCopy in_ = { receiver := in_, result := in_ })
      ∧ (∀ in_ : Option (FederationRequest α β),
        FederationRequest.DeepCopy in_ = { receiver := in_, result := in_ })
      ∧ (∀ in_ : Option (FederationRequestList α β),
        FederationRequestList.DeepCopy in_ = { receiver := in_, result := in_ })
      ∧ (∀ in_ : Option (FederationRequestSpec α),
        FederationRequestSpec.DeepCopy in_ = { receiver := in_, result := in_ })
      ∧ (∀ in_ : Option (FederationRequestStatus β),
        FederationRequestStatus.DeepCopy in_ = { receiver := in_, result := in_ })
      ∧ (∀ v : ForeignClusterList α β, ∃ r,
        (ForeignClusterList.DeepCopy (some v)).result = some r
          ∧ r.Items.isNone = v.Items.isNone
          ∧ r.Items.map List.length = v.Items.map List.length
          ∧ ∀ i : Nat, (r.Items.bind fun l => l[i]?) = v.Items.bind fun l => l[i]?)
      ∧ (∀ v : FederationRequestList α β, ∃ r,
        (FederationRequestList.DeepCopy (some v)).result = some r
          ∧ r.Items.isNone = v.Items.isNone
          ∧ r.Items.map List.length = v.Items.map List.length
          ∧ ∀ i : Nat, (r.Items.bind fun l => l[i]?) = v.Items.bind fun l => l[i]?) := by
  have h1 : ∀ in_ : Option (ForeignCluster α β),
      ForeignCluster.DeepCopy in_ = { receiver := in_, result := in_ } :=
    deepCopyWith_eq _ ForeignCluster_DeepCopyInto_eq
  have h2 : ∀ in_ : Option (ForeignClusterList α β),
      ForeignClusterList.DeepCopy in_ = { receiver := in_, result := in_ } :=
    deepCopyWith_eq _ ForeignClusterList_DeepCopyInto_eq
  have h5 : ∀ in_ : Option (FederationRequest α β),
      FederationRequest.DeepCopy in_ = { receiver := in_, result := in_ } :=
    deepCopyWith_eq _ FederationRequest_DeepCopyInto_eq
  have h6 : ∀ in_ : Option (FederationRequestList α β),
      FederationRequestList.DeepCopy in_ = { receiver := in_, result := in_ } :=
    deepCopyWith_eq _ FederationRequestList_DeepCopyInto_eq
  refine ⟨h1, h2, deepCopyWith_eq _ fun _ => rfl, deepCopyWith_eq _ fun _ => rfl, h5, h6,
    deepCopyWith_eq _ fun _ => rfl, deepCopyWith_eq _ fun _ => rfl, ?_, ?_⟩
  · intro v
    exact ⟨v, by rw [h2], rfl, rfl, fun _ => rfl⟩
  · intro v
    exact ⟨v, by rw [h6], rfl, rfl, fun _ => rfl⟩

end DiscoveryV1

/-! ## Theorems: peering lifecycle -/

namespace Lifecycle

theorem reconcile_of_stable (c : Conditions) (w : World) (h : step c w = w) :
    ∀ fuel, reconcile c fuel w = w
  | 0 => rfl
  | fuel + 1 => by simp [reconcile, h]

theorem reconcile_of_moved (c : Conditions) (w : World) (fuel : Nat) (h : step c w ≠ w) :
    reconcile c (fuel + 1) w = reconcile c fuel (step c w) := by
  simp [reconcile, h]

theorem requestsOf_filter_ne (h : ClusterIdentity) (rs : List PeeringRequestRecord) :
    requestsOf h (rs.filter fun r => r.requester ≠ h) = [] := by
  simp [requestsOf, List.filter_filter, List.filter_eq_nil_iff]

theorem requestsOf_create (h : ClusterIdentity) (rs : List PeeringRequestRecord) :
    requestsOf h (rs.filter (fun r => r.requester ≠ h) ++ [{ requester := h, accepted := true }])
      = [{ requester := h, accepted := true }] := by
  have := requestsOf_filter_ne h rs
  simp only [requestsOf] at this
  simp [requestsOf, List.filter_append, this]

theorem reconcile_move (c : Conditions) (w w1 : World) (fuel : Nat) (h : step c w = w1)
    (hne : w1 ≠ w) : reconcile c (fuel + 1) w = reconcile c fuel w1 := by
  subst h
  exact reconcile_of_moved c w fuel hne

theorem step_unknown_join (c : Conditions) (home id : ClusterIdentity) (url : String)
    (ref : Option PeeringRequestReference) (jd : Bool) (err : Option PeeringError)
    (hr rr : List PeeringRequestRecord) (ts : List TunnelPeerConfig) :
    step c ⟨home, ⟨id, true, url, .Unknown, ref, jd, err⟩, hr, rr, ts⟩
      = ⟨home, ⟨id, true, url, .Discovered, ref, jd, err⟩, hr, rr, ts⟩ := rfl

theorem step_discovered_join (c : Conditions) (home id : ClusterIdentity) (url : String)
    (ref : Option PeeringRequestReference) (jd : Bool) (err : Option PeeringError)
    (hr rr : List PeeringRequestRecord) (ts : List TunnelPeerConfig) :
    step c ⟨home, ⟨id, true, url, .Discovered, ref, jd, err⟩, hr, rr, ts⟩
      = ⟨home, ⟨id, true, url, .Authenticating, ref, jd, err⟩, hr, rr, ts⟩ := rfl

theorem step_authenticating_join (c : Conditions) (hc : c.healthy = true)
    (home id : ClusterIdentity) (url : String)
    (jd : Bool) (err : Option PeeringError)
    (hr rr : List PeeringRequestRecord) (ts : List TunnelPeerConfig) :
    step c ⟨home, ⟨id, true, url, .Authenticating, none, jd, err⟩, hr, rr, ts⟩
      = ⟨home, ⟨id, true, url, .Establishing, some ⟨home⟩, jd, err⟩, hr,
          rr.filter (fun r => r.requester ≠ home) ++ [{ requester := home, accepted := true }],
          ts⟩ := by
  obtain ⟨r, a, t, d⟩ := c
  simp only [Conditions.healthy, Bool.and_eq_true] at hc
  obtain ⟨⟨⟨rfl, rfl⟩, rfl⟩, rfl⟩ := hc
  rfl

theorem step_establishing_join (c : Conditions) (hc : c.healthy = true)
    (home id : ClusterIdentity) (url : String) (ref : Option PeeringRequestReference)
    (jd : Bool) (err : Option PeeringError)
    (hr rr : List PeeringRequestRecord) (ts : List TunnelPeerConfig) :
    step c ⟨home, ⟨id, true, url, .Establishing, ref, jd, err⟩, hr, rr, ts⟩
      = ⟨home, ⟨id, true, url, .Peered, ref, true, none⟩, hr, rr,
          ts.filter (fun t => t.identity ≠ id) ++ [{ identity := id, endpoint := url }]⟩ := by
  obtain ⟨r, a, t, d⟩ := c
  simp only [Conditions.healthy, Bool.and_eq_true] at hc
  obtain ⟨⟨⟨rfl, rfl⟩, rfl⟩, rfl⟩ := hc
  rfl

theorem step_peered_join (c : Conditions) (home id : ClusterIdentity) (url : String)
    (ref : Option PeeringRequestReference) (jd : Bool) (err : Option PeeringError)
    (hr rr : List PeeringRequestRecord) (ts : List TunnelPeerConfig) :
    step c ⟨home, ⟨id, true, url, .Peered, ref, jd, err⟩, hr, rr, ts⟩
      = ⟨home, ⟨id, true, url, .Peered, ref, jd, err⟩, hr, rr, ts⟩ := rfl

theorem step_peered_disjoin (c : Conditions) (hc : c.healthy = true)
    (home id : ClusterIdentity) (url : String)
    (ref : Option PeeringRequestReference) (jd : Bool) (err : Option PeeringError)
    (hr rr : List PeeringRequestRecord) (ts : List TunnelPeerConfig) :
    step c ⟨home, ⟨id, false, url, .Peered, ref, jd, err⟩, hr, rr, ts⟩
      = ⟨home, ⟨id, false, url, .Disjoining, ref, jd, err⟩, hr,
          rr.filter (fun r => r.requester ≠ home), ts.filter (fun t => t.identity ≠ id)⟩ := by
  obtain ⟨r, a, t, d⟩ := c
  simp only [Conditions.healthy, Bool.and_eq_true] at hc
  obtain ⟨⟨⟨rfl, rfl⟩, rfl⟩, rfl⟩ := hc
  rfl

theorem step_disjoining_done (c : Conditions)
    (home id : ClusterIdentity) (url : String) (jn : Bool)
    (ref : Option PeeringRequestReference) (jd : Bool) (err : Option PeeringError)
    (hr rr : List PeeringRequestRecord) (ts : List TunnelPeerConfig) :
    step c ⟨home, ⟨id, jn, url, .Disjoining, ref, jd, err⟩, hr, rr,
        ts.filter (fun t => t.identity ≠ id)⟩
      = ⟨home, ⟨id, jn, url, .Unknown, none, false, err⟩, hr, rr,
          ts.filter (fun t => t.identity ≠ id)⟩ := by
  have h : (ts.filter (fun t => t.identity ≠ id)).filter (fun t => t.identity = id) = [] := by
    simp [List.filter_filter, List.filter_eq_nil_iff]
  simp [step, h]

theorem step_idle (c : Conditions) (home id : ClusterIdentity) (url : String)
    (st : LifecycleState) (hst : st = .Unknown ∨ st = .Discovered)
    (ref : Option PeeringRequestReference) (jd : Bool) (err : Option PeeringError)
    (hr rr : List PeeringRequestRecord) (ts : List TunnelPeerConfig) :
    step c ⟨home, ⟨id, false, url, st, ref, jd, err⟩, hr, rr, ts⟩
      = ⟨home, ⟨id, false, url, st, ref, jd, err⟩, hr, rr, ts⟩ := by
  rcases hst with rfl | rfl <;> rfl


theorem Rest_setJoin (b : Bool) (w : World) (h : Settled w) : Rest (setJoin b w) := by
  rcases h with ⟨-, h⟩ | ⟨-, h⟩
  · exact Or.inl h
  · exact Or.inr h

theorem reconcile_rest (c : Conditions) (hc : c.healthy = true) (fuel : Nat) (hfuel : 4 ≤ fuel)
    (w : World) (hw : Rest w) :
    Settled (reconcile c fuel w)
      ∧ step c (reconcile c fuel w) = reconcile c fuel w
      ∧ (reconcile c fuel w).home = w.home
      ∧ (reconcile c fuel w).homeRequests = w.homeRequests
      ∧ (reconcile c fuel w).record.join = w.record.join := by
  obtain ⟨n, rfl⟩ : ∃ n, fuel = n + 4 := ⟨fuel - 4, by omega⟩
  obtain ⟨home, ⟨id, jn, url, st, ref, jd, err⟩, hr, rr, ts⟩ := w
  cases jn with
  | true =>
    rcases hw with ⟨h1, h2, h3, h4⟩ | ⟨h1, h2, h3, h4⟩
    · simp only at h1 h2 h3 h4
      subst h1 h3 h4
      have hst := step_peered_join c home id url (some ⟨home⟩) true err hr rr ts
      rw [reconcile_of_stable c _ hst]
      exact ⟨Or.inl ⟨rfl, rfl, h2, rfl, rfl⟩, hst, rfl, rfl, rfl⟩
    · simp only at h1 h2 h3 h4
      subst h3 h4
      have hfin : ∀ k, reconcile c (k + 3)
          ⟨home, ⟨id, true, url, .Discovered, none, false, err⟩, hr, rr, ts⟩
          = ⟨home, ⟨id, true, url, .Peered, some ⟨home⟩, true, none⟩, hr,
              rr.filter (fun r => r.requester ≠ home)
                ++ [{ requester := home, accepted := true }],
              ts.filter (fun t => t.identity ≠ id) ++ [{ identity := id, endpoint := url }]⟩ := by
        intro k
        rw [reconcile_move c _ _ (k + 2) (step_discovered_join c home id url none false err hr rr ts)
            (by simp),
          reconcile_move c _ _ (k + 1)
            (step_authenticating_join c hc home id url false err hr rr ts) (by simp),
          reconcile_move c _ _ k
            (step_establishing_join c hc home id url (some ⟨home⟩) false err hr _ ts) (by simp)]
        exact reconcile_of_stable c _ (step_peered_join c home id url _ _ _ hr _ _) k
      have hres : reconcile c (n + 4)
          ⟨home, ⟨id, true, url, st, none, false, err⟩, hr, rr, ts⟩
          = ⟨home, ⟨id, true, url, .Peered, some ⟨home⟩, true, none⟩, hr,
              rr.filter (fun r => r.requester ≠ home)
                ++ [{ requester := home, accepted := true }],
              ts.filter (fun t => t.identity ≠ id) ++ [{ identity := id, endpoint := url }]⟩ := by
        rcases h1 with rfl | rfl
        · rw [reconcile_move c _ _ (n + 3)
            (step_unknown_join c home id url none false err hr rr ts) (by simp)]
          exact hfin n
        · exact hfin (n + 1)
      rw [hres]
      refine ⟨Or.inl ⟨rfl, rfl, ?_, rfl, rfl⟩, step_peered_join c home id url _ _ _ hr _ _,
        rfl, rfl, rfl⟩
      simp only [requestsOf_create, List.length_singleton]
  | false =>
    rcases hw with ⟨h1, h2, h3, h4⟩ | ⟨h1, h2, h3, h4⟩
    · simp only at h1 h2 h3 h4
      subst h1 h3 h4
      have hres : reconcile c (n + 4)
          ⟨home, ⟨id, false, url, .Peered, some ⟨home⟩, true, err⟩, hr, rr, ts⟩
          = ⟨home, ⟨id, false, url, .Unknown, none, false, err⟩, hr,
              rr.filter (fun r => r.requester ≠ home),
              ts.filter (fun t => t.identity ≠ id)⟩ := by
        rw [reconcile_move c _ _ (n + 3)
            (step_peered_disjoin c hc home id url (some ⟨home⟩) true err hr rr ts) (by simp),
          reconcile_move c _ _ (n + 2)
            (step_disjoining_done c home id url false (some ⟨home⟩) true err hr _ ts) (by simp)]
        exact reconcile_of_stable c _ (step_idle c home id url _ (Or.inl rfl) _ _ _ hr _ _) _
      rw [hres]
      exact ⟨Or.inr ⟨rfl, Or.inl rfl, requestsOf_filter_ne home rr, rfl, rfl⟩,
        step_idle c home id url _ (Or.inl rfl) _ _ _ hr _ _, rfl, rfl, rfl⟩
    · simp only at h1 h2 h3 h4
      subst h3 h4
      have hst := step_idle c home id url st h1 none false err hr rr ts
      rw [reconcile_of_stable c _ hst]
      exact ⟨Or.inr ⟨rfl, h1, h2, rfl, rfl⟩, hst, rfl, rfl, rfl⟩


/-- A settled world stays settled through any sequence of writes of the desired join flag,
each followed by a reconciliation; the home side is untouched and the flag is the last one
written. -/
theorem foldl_settled (c : Conditions) (hc : c.healthy = true) (fuel : Nat) (hfuel : 4 ≤ fuel) :
    ∀ (flags : List Bool) (w : World), Settled w → step c w = w →
      Settled (flags.foldl (fun w join => reconcile c fuel (setJoin join w)) w)
        ∧ step c (flags.foldl (fun w join => reconcile c fuel (setJoin join w)) w)
            = flags.foldl (fun w join => reconcile c fuel (setJoin join w)) w
        ∧ (flags.foldl (fun w join => reconcile c fuel (setJoin join w)) w).home = w.home
        ∧ (flags.foldl (fun w join => reconcile c fuel (setJoin join w)) w).homeRequests
            = w.homeRequests
        ∧ (flags.foldl (fun w join => reconcile c fuel (setJoin join w)) w).record.join
            = flags.getLast?.getD w.record.join
  | [], w, hs, hst => ⟨hs, hst, rfl, rfl, rfl⟩
  | b :: rest, w, hs, _ => by
    obtain ⟨h1, h2, h3, h4, h5⟩ :=
      reconcile_rest c hc fuel hfuel (setJoin b w) (Rest_setJoin b w hs)
    obtain ⟨g1, g2, g3, g4, g5⟩ :=
      foldl_settled c hc fuel hfuel rest (reconcile c fuel (setJoin b w)) h1 h2
    simp only [List.foldl_cons]
    refine ⟨g1, g2, g3.trans h3, g4.trans h4, ?_⟩
    rw [g5, h5]
    cases rest with
    | nil => simp [setJoin]
    | cons h t =>
      simp [setJoin, List.getLast?_cons_cons, List.getLast?_eq_getLast _ (List.cons_ne_nil h t)]

/-- The life of a record created on a remote side that holds no PeeringRequestRecord of
the home cluster, against a healthy remote cluster: after every reconciliation the world
is settled, the home side is as it was, and the flag is the last one written. -/
theorem run_settled (c : Conditions) (hc : c.healthy = true) (fuel : Nat) (hfuel : 4 ≤ fuel)
    (home remote : ClusterIdentity) (apiUrl : String) (join : Bool)
    (homeRequests remoteRequests : List PeeringRequestRecord) (tunnels : List TunnelPeerConfig)
    (hnone : requestsOf home remoteRequests = []) (flags : List Bool) :
    Settled (run c fuel
        (createRecord home remote apiUrl join homeRequests remoteRequests tunnels) flags)
      ∧ step c (run c fuel
          (createRecord home remote apiUrl join homeRequests remoteRequests tunnels) flags)
        = run c fuel
          (createRecord home remote apiUrl join homeRequests remoteRequests tunnels) flags
      ∧ (run c fuel
          (createRecord home remote apiUrl join homeRequests remoteRequests tunnels) flags).home
        = home
      ∧ (run c fuel
          (createRecord home remote apiUrl join homeRequests remoteRequests tunnels)
          flags).homeRequests = homeRequests
      ∧ (run c fuel
          (createRecord home remote apiUrl join homeRequests remoteRequests tunnels)
          flags).record.join = flags.getLast?.getD join := by
  have hrest : Rest (createRecord home remote apiUrl join homeRequests remoteRequests tunnels) :=
    Or.inr ⟨Or.inr rfl, hnone, rfl, rfl⟩
  obtain ⟨h1, h2, h3, h4, h5⟩ := reconcile_rest c hc fuel hfuel _ hrest
  obtain ⟨g1, g2, g3, g4, g5⟩ := foldl_settled c hc fuel hfuel flags _ h1 h2
  exact ⟨g1, g2, g3.trans h3, g4.trans h4, g5.trans (by rw [h5]; rfl)⟩

/-- C3: a ForeignClusterRecord is created, with either join flag, for a healthy remote
cluster that holds no PeeringRequestRecord of the home cluster, and its desired join flag
is then written any number of times, every write being followed by a reconciliation of at
least four transitions. Afterwards reconciliation has come to rest, the flag is the last
one written, the remote cluster holds exactly one PeeringRequestRecord of the home cluster
when the flag is true and none when it is false, and the PeeringRequestRecords of the home
cluster are those it held at the start: none is created there. -/
theorem remote_requests_follow_join (c : Conditions) (hc : c.healthy = true) (fuel : Nat)
    (hfuel : 4 ≤ fuel) (home remote : ClusterIdentity) (apiUrl : String) (join : Bool)
    (homeRequests remoteRequests : List PeeringRequestRecord) (tunnels : List TunnelPeerConfig)
    (hnone : requestsOf home remoteRequests = []) (flags : List Bool) :
    step c (run c fuel
          (createRecord home remote apiUrl join homeRequests remoteRequests tunnels) flags)
        = run c fuel
          (createRecord home remote apiUrl join homeRequests remoteRequests tunnels) flags
      ∧ (run c fuel
          (createRecord home remote apiUrl join homeRequests remoteRequests tunnels)
          flags).record.join = flags.getLast?.getD join
      ∧ (requestsOf home (run c fuel
          (createRecord home remote apiUrl join homeRequests remoteRequests tunnels)
          flags).remoteRequests).length = (if flags.getLast?.getD join then 1 else 0)
      ∧ (run c fuel
          (createRecord home remote apiUrl join homeRequests remoteRequests tunnels)
          flags).homeRequests = homeRequests := by
  obtain ⟨h1, h2, h3, h4, h5⟩ := run_settled c hc fuel hfuel home remote apiUrl join
    homeRequests remoteRequests tunnels hnone flags
  refine ⟨h2, h5, ?_, h4⟩
  rw [← h5]
  rcases h1 with ⟨hj, -, hcount, -, -⟩ | ⟨hj, -, hcount, -, -⟩
  · rw [h3] at hcount
    rw [hj, hcount]
    rfl
  · rw [h3] at hcount
    rw [hj, hcount]
    rfl

/-- C3, evaluated: the record of the unit test, created with join false on a remote
cluster that holds a request of another cluster, then joined and disjoined. -/
theorem remote_requests_follow_join_witness :
    exampleHealthy.healthy = true ∧ 4 ≤ 4
      ∧ requestsOf exampleHome [{ requester := exampleRemote, accepted := true }] = []
      ∧ (requestsOf exampleHome (run exampleHealthy 4
          (createRecord exampleHome exampleRemote "https://remote" false []
            [{ requester := exampleRemote, accepted := true }] [])
          [true, false]).remoteRequests).length
        = (if [true, false].getLast?.getD false then 1 else 0) :=
  ⟨rfl, Nat.le_refl 4, by decide,
    (remote_requests_follow_join exampleHealthy rfl 4 (Nat.le_refl 4) exampleHome exampleRemote
      "https://remote" false [] [{ requester := exampleRemote, accepted := true }] []
      (by decide) [true, false]).2.2.1⟩

/-- C4: in the setting of C3, with a non-empty cluster ID of the home cluster, after the
last reconciliation: either the desired join flag is true, the status has Joined = true
and the PeeringRequestName is non-empty; or the flag is false, the status has Joined =
false and the PeeringRequestName is empty. The flag is the last one written. -/
theorem joined_status_follows_join (c : Conditions) (hc : c.healthy = true) (fuel : Nat)
    (hfuel : 4 ≤ fuel) (home remote : ClusterIdentity) (hid : home.clusterID ≠ "")
    (apiUrl : String) (join : Bool)
    (homeRequests remoteRequests : List PeeringRequestRecord) (tunnels : List TunnelPeerConfig)
    (hnone : requestsOf home remoteRequests = []) (flags : List Bool) :
    (run c fuel
        (createRecord home remote apiUrl join homeRequests remoteRequests tunnels)
        flags).record.join = flags.getLast?.getD join
      ∧ (((run c fuel
            (createRecord home remote apiUrl join homeRequests remoteRequests tunnels)
            flags).record.join = true
          ∧ (run c fuel
            (createRecord home remote apiUrl join homeRequests remoteRequests tunnels)
            flags).record.joined = true
          ∧ (run c fuel
            (createRecord home remote apiUrl join homeRequests remoteRequests tunnels)
            flags).record.PeeringRequestName ≠ "")
        ∨ ((run c fuel
            (createRecord home remote apiUrl join homeRequests remoteRequests tunnels)
            flags).record.join = false
          ∧ (run c fuel
            (createRecord home remote apiUrl join homeRequests remoteRequests tunnels)
            flags).record.joined = false
          ∧ (run c fuel
            (createRecord home remote apiUrl join homeRequests remoteRequests tunnels)
            flags).record.PeeringRequestName = "")) := by
  obtain ⟨h1, -, h3, -, h5⟩ := run_settled c hc fuel hfuel home remote apiUrl join
    homeRequests remoteRequests tunnels hnone flags
  refine ⟨h5, ?_⟩
  rcases h1 with ⟨hj, -, -, href, hjd⟩ | ⟨hj, -, -, href, hjd⟩
  · refine Or.inl ⟨hj, hjd, ?_⟩
    rw [ForeignClusterRecord.PeeringRequestName, href, h3]
    exact hid
  · refine Or.inr ⟨hj, hjd, ?_⟩
    rw [ForeignClusterRecord.PeeringRequestName, href]

/-- C4, evaluated: the record of the unit test after the join of `testJoin`. -/
theorem joined_status_follows_join_witness :
    exampleHealthy.healthy = true ∧ 4 ≤ 4 ∧ exampleHome.clusterID ≠ ""
      ∧ requestsOf exampleHome ([] : List PeeringRequestRecord) = []
      ∧ (run exampleHealthy 4
          (createRecord exampleHome exampleRemote "https://remote" false [] [] [])
          [true]).record.join = [true].getLast?.getD false :=
  ⟨rfl, Nat.le_refl 4, by decide, rfl,
    (joined_status_follows_join exampleHealthy rfl 4 (Nat.le_refl 4) exampleHome exampleRemote
      (by decide) "https://remote" false [] [] [] rfl [true]).1⟩

end Lifecycle

end Liqo
